import Mathlib

/-!
Verification of the ChemDataExtractor TADF record model and auto-parser.

This file gives a shallow embedding of the record/merge layer
(chemdataextractor/model/base.py), of the auto-parser interpretation
(chemdataextractor/parse/auto.py), of the unit-grammar construction
(construct_unit_element), and of the delayed-lifetime table parser
(tadf_models/models/lifetime.py), and proves or refutes the claims of the
specification against them.

Python floats are modelled as rationals (the operations used by the code are
order comparisons, minima and products of small decimal constants, which are
exact); Python strings are Lean strings; Python None is Option.none.  Code of
the repository that is not shipped under src/ (the parser-element engine
parse/elements.py, the contextual-range arithmetic model/contextual_range.py,
the confidence pooling model/confidence_pooling.py and the quantity-model base
model/units/quantity_model.py) is modelled from the spec where needed; each
such definition carries a doc comment starting with `Modelled from the spec:`.
-/

namespace CDE

/-! ## Python basics -/

/-- Truthiness of an optional string, as Python evaluates `if value:`:
`None` and the empty string are falsy, every other string is truthy. -/
def truthyStr (v : Option String) : Bool :=
  match v with
  | none => false
  | some s => s ≠ ""

/-- `StringType.is_empty` (base.py:127-130): a value is non-empty iff it is a
non-None, non-empty string. -/
def stringIsEmpty (v : Option String) : Bool :=
  match v with
  | none => true
  | some s => s = ""

/-- Python string comparison: lexicographic over the code points of the
characters.  Implemented over the character lists so that concrete
comparisons reduce inside the kernel. -/
def lexLeB : List Char → List Char → Bool
  | [], _ => true
  | _ :: _, [] => false
  | a :: as, b :: bs =>
    if a = b then lexLeB as bs
    else decide (a.toNat < b.toNat)

/-- Python `<=` on strings (used by `sorted` on lists of strings). -/
def pyStrLe (a b : String) : Bool := lexLeB a.data b.data

/-- The ordering relation given by Python string comparison. -/
def pyStrLeRel : String → String → Prop := fun a b => pyStrLe a b = true

instance : DecidableRel pyStrLeRel := fun a b => instDecidableEqBool (pyStrLe a b) true

instance : IsTotal String pyStrLeRel := by
  constructor
  intro a b
  show pyStrLe a b = true ∨ pyStrLe b a = true
  unfold pyStrLe
  generalize a.data = l1
  generalize b.data = l2
  induction l1 generalizing l2 with
  | nil => exact Or.inl rfl
  | cons x xs ih =>
    cases l2 with
    | nil => exact Or.inr rfl
    | cons y ys =>
      by_cases hxy : x = y
      · subst hxy
        rcases ih ys with h | h
        · exact Or.inl (by simpa [lexLeB] using h)
        · exact Or.inr (by simpa [lexLeB] using h)
      · rcases Nat.lt_or_ge x.toNat y.toNat with h | h
        · exact Or.inl (by simp [lexLeB, hxy, h])
        · have hlt : y.toNat < x.toNat := by
            rcases Nat.lt_or_ge y.toNat x.toNat with h2 | h2
            · exact h2
            · exact absurd (Char.eq_of_val_eq (UInt32.toNat.inj (Nat.le_antisymm h h2)))
                (Ne.symm hxy)
          exact Or.inr (by simp [lexLeB, Ne.symm hxy, hlt])

instance : IsTrans String pyStrLeRel := by
  constructor
  intro a b c hab hbc
  show pyStrLe a c = true
  have key : ∀ (l1 l2 l3 : List Char),
      lexLeB l1 l2 = true → lexLeB l2 l3 = true → lexLeB l1 l3 = true := by
    intro l1
    induction l1 with
    | nil => intro l2 l3 _ _; rfl
    | cons x xs ih =>
      intro l2 l3 h12 h23
      cases l2 with
      | nil => simp [lexLeB] at h12
      | cons y ys =>
        cases l3 with
        | nil => simp [lexLeB] at h23
        | cons z zs =>
          by_cases hxy : x = y
          · subst hxy
            by_cases hxz : x = z
            · subst hxz
              simp only [lexLeB, if_pos rfl] at h12 h23 ⊢
              exact ih ys zs h12 h23
            · simp only [lexLeB, if_pos rfl] at h12
              simpa [lexLeB, hxz] using h23
          · by_cases hyz : y = z
            · subst hyz
              simpa [lexLeB, hxy] using h12
            · simp only [lexLeB, if_neg hxy, decide_eq_true_eq] at h12
              simp only [lexLeB, if_neg hyz, decide_eq_true_eq] at h23
              have hxz : x ≠ z := by
                intro he
                subst he
                exact absurd (Nat.lt_trans h12 h23) (lt_irrefl _)
              simp [lexLeB, hxz, Nat.lt_trans h12 h23]
  exact key a.data b.data c.data hab hbc

instance : IsAntisymm String pyStrLeRel := by
  constructor
  intro a b hab hba
  have key : ∀ (l1 l2 : List Char),
      lexLeB l1 l2 = true → lexLeB l2 l1 = true → l1 = l2 := by
    intro l1
    induction l1 with
    | nil =>
      intro l2 _ h21
      cases l2 with
      | nil => rfl
      | cons y ys => simp [lexLeB] at h21
    | cons x xs ih =>
      intro l2 h12 h21
      cases l2 with
      | nil => simp [lexLeB] at h12
      | cons y ys =>
        by_cases hxy : x = y
        · subst hxy
          simp only [lexLeB, if_pos rfl] at h12 h21
          rw [ih ys h12 h21]
        · simp only [lexLeB, if_neg hxy, decide_eq_true_eq] at h12
          simp only [lexLeB, if_neg (Ne.symm hxy), decide_eq_true_eq] at h21
          exact absurd (Nat.lt_trans h12 h21) (lt_irrefl _)
  cases a with
  | mk d1 =>
    cases b with
    | mk d2 =>
      exact congrArg String.mk (key d1 d2 hab hba)

/-! ## C7: construct_unit_element (parse/auto.py:40-85) -/

/-- A `Dimension` as consumed by `construct_unit_element`: the code only reads
`dimensions.units_dict`, a mapping whose keys carry regex pattern strings; we
keep the list of those pattern strings. -/
structure Dimensions where
  unitsDict : List String
deriving Repr, DecidableEq

/-- Errors raised by `construct_unit_element` for an integer `max_power`
(the `isinstance` TypeError branch cannot fire for an integer argument):
`valueErrorLow` is the `max_power <= 2` ValueError, whose message reads
"max_power should be greater than or equal to 2"; `valueErrorHigh` is the
`max_power > 9` ValueError. -/
inductive UnitElemError where
  | valueErrorLow
  | valueErrorHigh
deriving Repr, DecidableEq

/-- Modelled from the spec: `magnitudes_dict` lives in parse/quantity.py,
which is not shipped under src/.  The spec only requires that magnitude
prefixes (e.g. kilo) exist; the concrete pattern strings are irrelevant to
the claims, so a representative non-empty list is used. -/
def magnitudesPatterns : List String := ["k", "M", "G", "m", "n"]

/-- Assembly of the two regex strings of auto.py:80-85 from the partial
`units_regex` and the `numbers_regex`:
`units_regex2 = units_regex + ...numbers...` then `'))+$'`, while
`units_regex` gains `'))+'`, then `units_regex2[1:-2] + '*'`, then `'$'`. -/
def finishUnitRegexes (unitsRegex numbersRegex : String) : String × String :=
  let unitsRegex2a := unitsRegex ++ "|([\\+\\-–−]?" ++ numbersRegex ++ "(\\." ++ numbersRegex ++ ")?)"
  let unitsRegex2 := unitsRegex2a ++ "))+$"
  let unitsRegexA := unitsRegex ++ "))+"
  let unitsRegexB := unitsRegexA ++ ((unitsRegex2.drop 1).dropRight 2 ++ "*")
  (unitsRegexB ++ "$", unitsRegex2)

/-- `construct_unit_element(dimensions, max_power)` (auto.py:40-85).
Returns `none` when no dimensions / empty units_dict; raises ValueError when
`max_power <= 2` or `max_power > 9`; otherwise returns (a model of) the
constructed element, represented by the pair of regex pattern strings of its
two `R(...)` leaves. -/
def construct_unit_element (dimensions : Option Dimensions) (maxPower : Option Int) :
    Except UnitElemError (Option (String × String)) :=
  match dimensions with
  | none => .ok none
  | some dims =>
    if dims.unitsDict.isEmpty then .ok none
    else
      let r0 := magnitudesPatterns.foldl (fun acc p => acc ++ "(" ++ p ++ ")|") ("^((")
      let r1 := r0.dropRight 1
      let r2 := r1 ++ ")?" ++ "("
      let r3 := r2 ++ "((\\(|\\[))|((\\)|\\]))|\\-|"
      let r4 := dims.unitsDict.foldl (fun acc p => acc ++ "(" ++ p ++ ")|") r3
      let r5 := r4 ++ "(\\/)"
      match maxPower with
      | none => .ok (some (finishUnitRegexes r5 ("\\d+")))
      | some mp =>
        if mp ≤ 2 then .error .valueErrorLow
        else if mp > 9 then .error .valueErrorHigh
        else .ok (some (finishUnitRegexes r5 ("[2-" ++ toString mp ++ "]")))

/-- The Time dimension of units/times.py:85-87: its units_dict keys are the
four regex patterns for day, year, hour, second. -/
def timeDimensions : Dimensions :=
  { unitsDict := ["d(ay(s)?)?", "y(ear(s)?)?", "h(our(s)?)?", "s(econd(s)?)?"] }

/-! ## C10: SetType.serialize (model/base.py:275-283) -/

/-- `SetType.serialize` (base.py:275-283).  The Python value is a set; since
the claim is about independence from set iteration order, the input is
modelled as a list enumerating the set in some iteration order.
`elemSerialize` stands for `self.field.serialize`, the serializer of the
element field (the identity for `StringType`). -/
def SetType_serialize (elemSerialize : String → String) (value : Option (List String)) :
    Option (List String) :=
  match value with
  | none => none
  | some v =>
    if v.length = 0 then none
    else
      let recList := v.map elemSerialize
      some (recList.insertionSort pyStrLeRel)

/-! ## The merge-engine schema

The record model of base.py is generic over a schema declared through the
metaclass.  The merge, confidence and subset algorithms are embedded here by
partial evaluation at a representative two-level schema exercising every kind
of behaviour the claims mention:

  class Inner(BaseModel):
      a = StringType(contextual=True)
      b = StringType()

  class Outer(BaseModel):
      x = StringType(contextual=True)
      y = StringType()
      s = StringType(required=True, requiredness=0.25)
      t = StringType(required=True)
      inner = ModelType(Inner, contextual=True)

No field sets `binding`, `ignore_when_merging` or `never_merge`, so
`binding_properties` is empty (`_binding_compatible` is True and
`_consolidate_binding` returns immediately, base.py:1212-1215 and 1239-1240)
and `_should_keep_both_records` is False (base.py:1083-1102: its loop body
only fires for `ignore_when_merging` fields).  `Outer.flatten()` is
the set containing Outer and Inner, so Inner is mergeable into Outer.

`_confidences` is a dict keyed by the field names and `self`; it is embedded
as one optional rational per key.  `_no_merge_ranges` is a dict with default
`0 * SentenceRange()`; it is embedded as one rational per field with default
0. -/

/-- Modelled from the spec: contextual ranges live in
model/contextual_range.py, absent from src/.  The spec requires only an
ordered quantity supporting comparison, scalar multiplication and a zero;
distances are rationals, a sentence counts 1 and the whole document is a
large constant bounding every realistic distance. -/
def SentenceRange : ℚ := 1

/-- Modelled from the spec: the document-wide contextual range (the default
`contextual_range` of every field, base.py:40). -/
def DocumentRange : ℚ := 10000

/-- A record of the Inner schema: the two field values, the per-field and
self confidences, the contextual merge counter and the per-field no-merge
ranges. -/
structure InnerRec where
  a : Option String
  b : Option String
  confA : Option ℚ := none
  confB : Option ℚ := none
  confSelf : Option ℚ := none
  contextualMergeCount : Nat := 0
  noMergeA : ℚ := 0
  noMergeB : ℚ := 0
deriving DecidableEq, Repr

/-- A record of the Outer schema. -/
structure OuterRec where
  x : Option String
  y : Option String
  s : Option String
  t : Option String
  inner : Option InnerRec
  confX : Option ℚ := none
  confY : Option ℚ := none
  confS : Option ℚ := none
  confT : Option ℚ := none
  confSelf : Option ℚ := none
  contextualMergeCount : Nat := 0
  noMergeX : ℚ := 0
  noMergeY : ℚ := 0
  noMergeS : ℚ := 0
  noMergeT : ℚ := 0
  noMergeInner : ℚ := 0
  recordMethod : Option String := none
deriving DecidableEq, Repr

/-- The all-default Outer record (every field at its default None). -/
def emptyOuterRec : OuterRec :=
  { x := none, y := none, s := none, t := none, inner := none }

instance : Inhabited OuterRec := ⟨emptyOuterRec⟩

/-- The contextual ranges of the contextual fields (all fields use the
default `DocumentRange`, base.py:40). -/
def innerContextualRangeA : ℚ := DocumentRange

/-- Contextual range of `Outer.x`. -/
def outerContextualRangeX : ℚ := DocumentRange

/-- Contextual range of `Outer.inner`. -/
def outerContextualRangeInner : ℚ := DocumentRange

/-- `contextual_fulfilled` (base.py:675-695) on Inner: the one contextual
field `a` must differ from its default None (the empty string differs from
None in Python, so it counts as fulfilled). -/
def InnerRec.contextualFulfilled (r : InnerRec) : Bool :=
  r.a.isSome

/-- `contextual_fulfilled` (base.py:675-695) on Outer: `x` (contextual) must
be non-None; `inner` is a contextual nested-model field, so it must be
non-None and itself contextually fulfilled (the recursion at base.py:687-689
fires for any nested model, contextual or not). -/
def OuterRec.contextualFulfilled (r : OuterRec) : Bool :=
  r.x.isSome && (match r.inner with
    | none => false
    | some i => i.contextualFulfilled)

/-- The Python `==` of two Inner records (base.py:527-532): equality of the
`_values` mapping, i.e. of the field values; confidences and counters do not
participate. -/
def InnerRec.pyEq (r1 r2 : InnerRec) : Bool :=
  decide (r1.a = r2.a) && decide (r1.b = r2.b)

/-- The Python `==` of two Outer records: field values compare recursively
(the nested record compares through its own `==`). -/
def OuterRec.pyEq (r1 r2 : OuterRec) : Bool :=
  decide (r1.x = r2.x) && decide (r1.y = r2.y) && decide (r1.s = r2.s) &&
  decide (r1.t = r2.t) &&
  (match r1.inner, r2.inner with
   | none, none => true
   | some i1, some i2 => i1.pyEq i2
   | _, _ => false)

/-- `_compatible` (base.py:1036-1067) on Inner: same type, and no scalar
field holds two different non-None values. -/
def InnerRec.compatible (self other : InnerRec) : Bool :=
  !(self.a.isSome && other.a.isSome && self.a ≠ other.a) &&
  !(self.b.isSome && other.b.isSome && self.b ≠ other.b)

/-- `_compatible` (base.py:1036-1067) on Outer: scalar fields must not
conflict, and the nested-model field recurses through `_compatible` when
both sides hold a record. -/
def OuterRec.compatible (self other : OuterRec) : Bool :=
  !(self.x.isSome && other.x.isSome && self.x ≠ other.x) &&
  !(self.y.isSome && other.y.isSome && self.y ≠ other.y) &&
  !(self.s.isSome && other.s.isSome && self.s ≠ other.s) &&
  !(self.t.isSome && other.t.isSome && self.t ≠ other.t) &&
  (match self.inner, other.inner with
   | some i1, some i2 => i1.compatible i2
   | _, _ => true)

/-- `_should_keep_both_records` (base.py:1083-1102): the loop body only fires
for fields with `ignore_when_merging`; no field of this schema sets it, so
the check is constantly False. -/
def OuterRec.shouldKeepBothRecords (_self : OuterRec) (_other : OuterRec ⊕ InnerRec) : Bool :=
  false

/-- `_should_keep_both_records` on Inner, likewise constantly False. -/
def InnerRec.shouldKeepBothRecords (_self _other : InnerRec) : Bool :=
  false

/-- `_requiredness_factor` (base.py:496-506) on Inner: neither field is
required and neither is a nested model, so every iteration multiplies by 1. -/
def InnerRec.requirednessFactor (_r : InnerRec) : ℚ := 1

/-- `ModelType.is_empty` on Inner values together with `is_empty`
(base.py:1293-1298): an Inner record is empty iff all its fields are empty. -/
def InnerRec.isEmptyRec (r : InnerRec) : Bool :=
  stringIsEmpty r.a && stringIsEmpty r.b

/-- `_requiredness_factor` (base.py:496-506) on Outer, iterating the fields
in declaration order x, y, s, t, inner:
`x`, `y` are not required; `s` is required with requiredness 0.25 ≠ 1.0, so
an empty `s` multiplies by 1 - 0.25; `t` is required with requiredness 1.0,
so the `requiredness != 1.0` guard skips it; `inner` is not required but is a
nested model, so a non-None value recurses. -/
def OuterRec.requirednessFactor (r : OuterRec) : ℚ :=
  (if stringIsEmpty r.s then 1 - 1/4 else 1) *
  (match r.inner with
   | some i => i.requirednessFactor
   | none => 1)

/-- The minimum of the non-None entries of a list, None when all are None. -/
def minOpt (l : List (Option ℚ)) : Option ℚ :=
  match l.filterMap id with
  | [] => none
  | v :: vs => some (vs.foldl min v)

/-- Modelled from the spec: the default pooling `min_value` lives in
model/confidence_pooling.py, absent from src/.  The spec words it as the
minimum across the per-field confidences, nulls ignored; when no field has a
confidence the pool is empty and None is returned (total_confidence then
substitutes 1.0, base.py:483-485). -/
def InnerRec.minValuePool (r : InnerRec) : Option ℚ :=
  minOpt [r.confA, r.confB]

/-- Modelled from the spec: `min_value` pooling on Outer (see
`InnerRec.minValuePool`). -/
def OuterRec.minValuePool (r : OuterRec) : Option ℚ :=
  minOpt [r.confX, r.confY, r.confS, r.confT]

/-- `total_confidence` (base.py:478-494) on Inner: the explicitly set self
confidence wins; otherwise the pooled value (1.0 when the pool returns None)
times the merging factor (constantly 1.0, the merge-count penalty is
commented out in the code) times the requiredness factor. -/
def InnerRec.total_confidence (r : InnerRec)
    (pool : InnerRec → Option ℚ := InnerRec.minValuePool)
    (_accountForMerging : Bool := false) : ℚ :=
  match r.confSelf with
  | some c => c
  | none =>
    (match pool r with
     | some v => v
     | none => 1) * 1 * r.requirednessFactor

/-- `total_confidence` (base.py:478-494) on Outer. -/
def OuterRec.total_confidence (r : OuterRec)
    (pool : OuterRec → Option ℚ := OuterRec.minValuePool)
    (_accountForMerging : Bool := false) : ℚ :=
  match r.confSelf with
  | some c => c
  | none =>
    (match pool r with
     | some v => v
     | none => 1) * 1 * r.requirednessFactor

/-! ### Confidence access and merging

`get_confidence(f, pooling_method=lambda x: None)` (base.py:419-450) on a
scalar field: a None attribute raises AttributeError which returns the
default None; otherwise the stored per-field confidence (or the default None
when absent).  On a nested-model field the confidence is the total
confidence of the nested record computed with the passed pooling (the
constantly-None lambda when called from merge_confidence).
`set_confidence` (base.py:452-476) on a None attribute passes silently; on a
scalar field it stores the value; on a nested-model field it stores the
value as the nested self confidence.
`merge_confidence` (base.py:1026-1034) keeps the lower of the two sides. -/

/-- get_confidence of field a with the constantly-None pooling. -/
def InnerRec.getConfA (r : InnerRec) : Option ℚ :=
  if r.a.isSome then r.confA else none

/-- set_confidence of field a. -/
def InnerRec.setConfA (r : InnerRec) (v : ℚ) : InnerRec :=
  if r.a.isSome then { r with confA := some v } else r

/-- merge_confidence of field a. -/
def InnerRec.mergeConfidenceA (self other : InnerRec) : InnerRec :=
  match self.getConfA, other.getConfA with
  | none, some ov => self.setConfA ov
  | some sv, some ov => self.setConfA (if sv < ov then sv else ov)
  | _, _ => self

/-- merge_confidence of the key `self` on Inner: `get_confidence` returns
`total_confidence()` for that key (base.py:422-423), with the default
pooling, on both sides; both are numbers, so the minimum is stored. -/
def InnerRec.mergeConfidenceSelf (self other : InnerRec) : InnerRec :=
  let sc := self.total_confidence
  let oc := other.total_confidence
  { self with confSelf := some (if sc < oc then sc else oc) }

/-- get_confidence of field x with the constantly-None pooling. -/
def OuterRec.getConfX (r : OuterRec) : Option ℚ :=
  if r.x.isSome then r.confX else none

/-- set_confidence of field x. -/
def OuterRec.setConfX (r : OuterRec) (v : ℚ) : OuterRec :=
  if r.x.isSome then { r with confX := some v } else r

/-- merge_confidence of field x. -/
def OuterRec.mergeConfidenceX (self other : OuterRec) : OuterRec :=
  match self.getConfX, other.getConfX with
  | none, some ov => self.setConfX ov
  | some sv, some ov => self.setConfX (if sv < ov then sv else ov)
  | _, _ => self

/-- get_confidence of the nested-model field inner with the constantly-None
pooling: the total confidence of the nested record under that pooling
(base.py:435-436). -/
def OuterRec.getConfInner (r : OuterRec) : Option ℚ :=
  match r.inner with
  | none => none
  | some i => some (i.total_confidence (fun _ => none))

/-- set_confidence of the nested-model field inner: stored as the nested
self confidence (base.py:467-468). -/
def OuterRec.setConfInner (r : OuterRec) (v : ℚ) : OuterRec :=
  match r.inner with
  | none => r
  | some i => { r with inner := some { i with confSelf := some v } }

/-- merge_confidence of field inner. -/
def OuterRec.mergeConfidenceInner (self other : OuterRec) : OuterRec :=
  match self.getConfInner, other.getConfInner with
  | none, some ov => self.setConfInner ov
  | some sv, some ov => self.setConfInner (if sv < ov then sv else ov)
  | _, _ => self

/-- merge_confidence of the key `self` on Outer against an Outer. -/
def OuterRec.mergeConfidenceSelf (self other : OuterRec) : OuterRec :=
  let sc := self.total_confidence
  let oc := other.total_confidence
  { self with confSelf := some (if sc < oc then sc else oc) }

/-- merge_confidence of the key `self` on Outer against an Inner (the
different-type merge path hands the foreign record to merge_confidence,
base.py:916-917). -/
def OuterRec.mergeConfidenceSelfInner (self : OuterRec) (other : InnerRec) : OuterRec :=
  let sc := self.total_confidence
  let oc := other.total_confidence
  { self with confSelf := some (if sc < oc then sc else oc) }

/-! ### merge_contextual -/

/-- The value `merge_contextual` hands back: the record itself on the
contextual-fulfilled early return (base.py:845-846), a boolean otherwise. -/
inductive MergeRet (α : Type) where
  | record (r : α)
  | b (v : Bool)
deriving DecidableEq, Repr

/-- Python truthiness of a merge_contextual return value: records are
truthy, booleans are themselves (used at base.py:881 where the nested return
feeds an `if`). -/
def MergeRet.truthy {α : Type} : MergeRet α → Bool
  | .record _ => true
  | .b v => v

/-- `merge_contextual` (base.py:820-920) of an Inner into an Inner (the same
type path).  Mutation is modelled by returning the updated record next to
the return value.  Walkthrough of the code on this schema:
`_should_keep_both_records` is False; the contextual-fulfilled early return
hands back the record itself; `_binding_compatible` is True (no binding
field); the types agree so only the `elif self._compatible(other)` loop at
base.py:895-906 runs, over the fields a (contextual) and b (not contextual,
never filled); `_consolidate_binding` is a no-op; on a merge the counter
increments and, when the other side carries a self confidence, the self
confidences are merged (base.py:914-919). -/
def InnerRec.merge_contextual (self other : InnerRec) (distance : ℚ := SentenceRange) :
    InnerRec × MergeRet InnerRec :=
  let shouldKeepBoth := self.shouldKeepBothRecords other
  if self.contextualFulfilled then (self, .record self)
  else
    let step :=
      if self.compatible other then
        if truthyStr self.a = false ∧ truthyStr other.a = true ∧
           distance ≤ innerContextualRangeA ∧ distance > self.noMergeA then
          let s2 := { self with a := other.a }
          (s2.mergeConfidenceA other, true)
        else (self, false)
      else (self, false)
    if step.2 then
      let s3 := { step.1 with contextualMergeCount := step.1.contextualMergeCount + 1 }
      let s4 := if other.confSelf.isSome then s3.mergeConfidenceSelf other else s3
      (s4, .b (if shouldKeepBoth then false else true))
    else (step.1, .b false)

/-- `type(other) in type(self).flatten()` for other = Inner, self = Outer:
Outer.flatten() (base.py:1104-1137) contains Outer and Inner, so True. -/
def innerInOuterFlatten : Bool := true

/-- The same-type path of `merge_contextual` (base.py:820-920) on an Outer
record: only the compatible loop at base.py:895-906 runs, filling `x`
(contextual scalar) and `inner` (contextual nested model) from the other
side when the slot is falsy, the other side is truthy, and the distance lies
within (no_merge_range, contextual_range]; `_consolidate_binding` is a no-op
and the did-merge postlude of base.py:914-919 closes the call. -/
def OuterRec.mergeContextualSame (self o : OuterRec) (distance : ℚ) :
    OuterRec × MergeRet OuterRec :=
  let shouldKeepBoth := self.shouldKeepBothRecords (Sum.inl o)
  if self.contextualFulfilled then (self, .record self)
  else
    let step :=
      if self.compatible o then
        let step1 :=
          if truthyStr self.x = false ∧ truthyStr o.x = true ∧
             distance ≤ outerContextualRangeX ∧ distance > self.noMergeX then
            let s2 := { self with x := o.x }
            (s2.mergeConfidenceX o, true)
          else (self, false)
        let step2 :=
          if step1.1.inner.isNone ∧ o.inner.isSome ∧
             distance ≤ outerContextualRangeInner ∧ distance > step1.1.noMergeInner then
            let s2 := { step1.1 with inner := o.inner }
            (s2.mergeConfidenceInner o, true)
          else (step1.1, false)
        (step2.1, step1.2 || step2.2)
      else (self, false)
    if step.2 then
      let s3 := { step.1 with contextualMergeCount := step.1.contextualMergeCount + 1 }
      let s4 := if o.confSelf.isSome then s3.mergeConfidenceSelf o else s3
      (s4, .b (if shouldKeepBoth then false else true))
    else (step.1, .b false)

/-- The different-type path of `merge_contextual` (base.py:820-920), other
being an Inner: Inner is in Outer.flatten(), and the loop at base.py:857-893
only matches the field `inner` through `isinstance(other,
field.model_class)`.  A present, unfulfilled nested record is merged in
place with the default distance SentenceRange() (base.py:881, the
truthiness of the nested return feeds did_merge); an absent one is filled
with a copy of other; the did-merge postlude of base.py:914-919 closes the
call. -/
def OuterRec.mergeContextualDiff (self : OuterRec) (o : InnerRec) (distance : ℚ) :
    OuterRec × MergeRet OuterRec :=
  let shouldKeepBoth := self.shouldKeepBothRecords (Sum.inr o)
  if self.contextualFulfilled then (self, .record self)
  else
    if innerInOuterFlatten then
      let step :=
        match self.inner with
        | some cur =>
          if cur.contextualFulfilled = false ∧
             distance ≤ outerContextualRangeInner ∧ distance > self.noMergeInner then
            let res := cur.merge_contextual o SentenceRange
            ({ self with inner := some res.1 }, res.2.truthy)
          else (self, false)
        | none =>
          if distance ≤ outerContextualRangeInner ∧ distance > self.noMergeInner then
            ({ self with inner := some o }, true)
          else (self, false)
      if step.2 then
        let s3 := { step.1 with contextualMergeCount := step.1.contextualMergeCount + 1 }
        let s4 := if o.confSelf.isSome then s3.mergeConfidenceSelfInner o else s3
        (s4, .b (if shouldKeepBoth then false else true))
      else (step.1, .b false)
    else (self, .b false)

/-- `merge_contextual` (base.py:820-920) on an Outer record; `other` is
either an Outer (same type, left) or an Inner (different type, right), the
dynamic type test of base.py:850-856 dispatching between the two paths. -/
def OuterRec.merge_contextual (self : OuterRec) (other : OuterRec ⊕ InnerRec)
    (distance : ℚ := SentenceRange) : OuterRec × MergeRet OuterRec :=
  match other with
  | .inl o => self.mergeContextualSame o distance
  | .inr o => self.mergeContextualDiff o distance

/-- `contextual_range(field_name)` (base.py:922-930): the contextual range
declared on the field. -/
def OuterRec.contextualRange (_r : OuterRec) (fieldName : String) : ℚ :=
  match fieldName with
  | "x" => outerContextualRangeX
  | "inner" => outerContextualRangeInner
  | _ => DocumentRange

/-- `no_merge_range(field_name)` (base.py:932-942): the per-record override,
defaulting to `0 * SentenceRange()`. -/
def OuterRec.noMergeRange (r : OuterRec) (fieldName : String) : ℚ :=
  match fieldName with
  | "x" => r.noMergeX
  | "y" => r.noMergeY
  | "s" => r.noMergeS
  | "t" => r.noMergeT
  | "inner" => r.noMergeInner
  | _ => 0

/-- Whether a merge_contextual return value is a boolean. -/
def MergeRet.isBool {α : Type} : MergeRet α → Bool
  | .record _ => false
  | .b _ => true

/-! ### is_superset / is_subset / remove_subsets -/

/-- `is_superset` (base.py:763-797) on Inner: for each scalar field, a truthy
value on the other side must be matched exactly. -/
def InnerRec.is_superset (self other : InnerRec) : Bool :=
  !(truthyStr other.a && self.a ≠ other.a) &&
  !(truthyStr other.b && self.b ≠ other.b)

/-- `is_superset` (base.py:763-797) on Outer: scalar fields as on Inner; for
the nested-model field, an absent self record loses against a present other,
an absent other passes, and two present records recurse. -/
def OuterRec.is_superset (self other : OuterRec) : Bool :=
  !(truthyStr other.x && self.x ≠ other.x) &&
  !(truthyStr other.y && self.y ≠ other.y) &&
  !(truthyStr other.s && self.s ≠ other.s) &&
  !(truthyStr other.t && self.t ≠ other.t) &&
  (match self.inner, other.inner with
   | none, none => true
   | none, some _ => false
   | some _, none => true
   | some si, some oi => si.is_superset oi)

/-- `is_subset` (base.py:799-818): the mirrored superset check. -/
def OuterRec.is_subset (self other : OuterRec) : Bool :=
  other.is_superset self

/-- The sort key of `remove_subsets` (base.py:1360-1361):
`total_confidence(_account_for_merging=True)`; the None fallback of the code
is dead since total_confidence always returns a number. -/
def removeSubsetsKey (el : OuterRec) : ℚ :=
  el.total_confidence OuterRec.minValuePool true

/-- The descending stable sort of base.py:1360-1361 (Python list.sort with
reverse=True is stable; insertion sort into the already-sorted tail keeps
earlier elements in front of equal keys). -/
def sortDescByConf (l : List OuterRec) : List OuterRec :=
  l.insertionSort (fun e1 e2 => removeSubsetsKey e2 ≤ removeSubsetsKey e1)

/-- The index-collecting double loop of `remove_subsets` (base.py:1366-1376):
for each i, each j with i ≠ j, elements[i] a subset of elements[j] and j not
already marked, i is marked unless strict mode exempts exact duplicates. -/
def removeSubsetsToRemove (elements : List OuterRec) (strict : Bool) : List Nat :=
  (List.range elements.length).foldl (fun acc i =>
    (List.range elements.length).foldl (fun acc2 j =>
      if i ≠ j ∧ (elements.getD i default).is_subset (elements.getD j default) = true ∧
         j ∉ acc2 ∧
         ¬(strict = true ∧ (elements.getD i default).pyEq (elements.getD j default) = true) then
        acc2 ++ [i]
      else acc2) acc) []

/-- `ModelList.remove_subsets` (base.py:1344-1384) on a collection of Outer
records (the type-grouping dictionary of the code degenerates to the single
Outer group): sort descending by total confidence, mark subsets, keep the
unmarked elements in sorted order. -/
def ModelList_remove_subsets (models : List OuterRec) (strict : Bool := false) : List OuterRec :=
  let elements := sortDescByConf models
  let toRemove := removeSubsetsToRemove elements strict
  ((List.range elements.length).filter (fun i => i ∉ toRemove)).map
    (fun i => elements.getD i default)

/-! ### sort_merge_candidates (base.py:1400-1406) -/

/-- The Python TypeError raised when `sorted` receives its key function as a
second positional argument (`sorted(merge_candidates, lambda x: x[0])`,
base.py:1406: `sorted` accepts `key` only as a keyword argument). -/
inductive PyTypeError where
  | typeError
deriving DecidableEq, Repr

/-- The sort key of base.py:1404: distance over (total confidence + 0.01),
falling back to the bare distance for a None confidence.  `totalConf` stands
for the dynamically dispatched `total_confidence` of the candidate record. -/
def candKey {α : Type} (totalConf : α → Option ℚ) (x : ℚ × α) : ℚ :=
  match totalConf x.2 with
  | some c => x.1 / (c + 1/100)
  | none => x.1

/-- Ascending comparison by `candKey`. -/
def candKeyRel {α : Type} (totalConf : α → Option ℚ) : (ℚ × α) → (ℚ × α) → Prop :=
  fun p q => candKey totalConf p ≤ candKey totalConf q

instance {α : Type} (tc : α → Option ℚ) : DecidableRel (candKeyRel tc) :=
  fun p q => inferInstanceAs (Decidable (candKey tc p ≤ candKey tc q))

instance {α : Type} (tc : α → Option ℚ) : IsTotal (ℚ × α) (candKeyRel tc) :=
  ⟨fun p q => le_total (candKey tc p) (candKey tc q)⟩

instance {α : Type} (tc : α → Option ℚ) : IsTrans (ℚ × α) (candKeyRel tc) :=
  ⟨fun _ _ _ h1 h2 => le_trans h1 h2⟩

/-- `sort_merge_candidates` (base.py:1400-1406).  The True branch calls
`sorted` with the key passed as a keyword (modelled by a stable insertion
sort under the key order); the False branch passes the key function
positionally, which Python 3 rejects with a TypeError before looking at the
list, since the signature of `sorted` is `sorted(iterable, /, *, key=None,
reverse=False)`. -/
def sort_merge_candidates {α : Type} (totalConf : α → Option ℚ)
    (mergeCandidates : List (ℚ × α)) (adjustByConfidence : Bool := true) :
    Except PyTypeError (List (ℚ × α)) :=
  if adjustByConfidence then
    .ok (mergeCandidates.insertionSort (candKeyRel totalConf))
  else
    .error .typeError

/-! ### The confidence-model formulas of the spec (C6)

The claim words `total_confidence` as: the explicit self-confidence when
set, else the pooled per-field confidence times the requiredness factor,
the product over every required-but-empty field of (1 - requiredness),
recursively through nested model fields.  The formulas below follow the
claim text over an explicit field-metadata table, to be compared with the
code embedding `OuterRec.total_confidence`. -/

/-- The requiredness metadata of one field. -/
structure FieldReq where
  fname : String
  required : Bool
  requiredness : ℚ

/-- The requiredness metadata of the Outer schema, in declaration order. -/
def outerFieldReqs : List FieldReq :=
  [⟨"x", false, 1⟩, ⟨"y", false, 1⟩, ⟨"s", true, 1/4⟩, ⟨"t", true, 1⟩, ⟨"inner", false, 1⟩]

/-- Emptiness of a field of an Outer record, per the is_empty methods of the
field types (base.py:127-130, 165-168). -/
def OuterRec.fieldIsEmpty (r : OuterRec) : String → Bool
  | "x" => stringIsEmpty r.x
  | "y" => stringIsEmpty r.y
  | "s" => stringIsEmpty r.s
  | "t" => stringIsEmpty r.t
  | "inner" =>
    match r.inner with
    | some i => i.isEmptyRec
    | none => true
  | _ => true

/-- The requiredness factor of the claim on Inner: no field of Inner is
required, so the product is empty. -/
def InnerRec.claimRequirednessFactor (_i : InnerRec) : ℚ := 1

/-- The requiredness factor exactly as the claim words it: the product over
every required-but-empty field of (1 - requiredness), recursing through a
present nested record. -/
def OuterRec.claimRequirednessFactor (r : OuterRec) : ℚ :=
  ((outerFieldReqs.filter
      (fun m => m.required && r.fieldIsEmpty m.fname)).map
    (fun m => 1 - m.requiredness)).prod *
  (match r.inner with
   | some i => i.claimRequirednessFactor
   | none => 1)

/-- `total_confidence` exactly as the claim words it, built on
`claimRequirednessFactor`. -/
def OuterRec.claimTotalConfidence (r : OuterRec) : ℚ :=
  match r.confSelf with
  | some c => c
  | none =>
    (match r.minValuePool with
     | some v => v
     | none => 1) * r.claimRequirednessFactor

/-- The requiredness factor as amended: the product runs only over
required-but-empty fields whose requiredness differs from 1.0 (the code
skips full-requiredness fields, base.py:499). -/
def OuterRec.amendedRequirednessFactor (r : OuterRec) : ℚ :=
  ((outerFieldReqs.filter
      (fun m => m.required && decide (m.requiredness ≠ 1) && r.fieldIsEmpty m.fname)).map
    (fun m => 1 - m.requiredness)).prod *
  (match r.inner with
   | some i => i.claimRequirednessFactor
   | none => 1)

/-- `total_confidence` as the amended claim words it. -/
def OuterRec.amendedTotalConfidence (r : OuterRec) : ℚ :=
  match r.confSelf with
  | some c => c
  | none =>
    (match r.minValuePool with
     | some v => v
     | none => 1) * r.amendedRequirednessFactor

/-! ## Result trees and the auto-parser (parse/auto.py)

The result tree of a successful match is an lxml element tree; each node has
a tag, optional text and children.  `_get_data_for_field` queries it with
the xpath `./name` (direct children) falling back to `//name` (any node of
the tree). -/

/-- A result-tree node. -/
inductive XNode where
  | mk (tag : String) (text : Option String) (children : List XNode)

/-- Tag of a node. -/
def XNode.tag : XNode → String
  | .mk t _ _ => t

/-- Text of a node. -/
def XNode.text : XNode → Option String
  | .mk _ tx _ => tx

/-- Children of a node. -/
def XNode.children : XNode → List XNode
  | .mk _ _ c => c

mutual

/-- The node together with all its descendants, in document order (the node
set the absolute xpath `//name` searches). -/
def XNode.selfAndDescendants : XNode → List XNode
  | .mk t tx c => .mk t tx c :: XNode.listDescendants c

/-- All nodes of a forest, in document order. -/
def XNode.listDescendants : List XNode → List XNode
  | [] => []
  | n :: rest => n.selfAndDescendants ++ XNode.listDescendants rest

end

/-- `result.xpath("./name/text()")`: the texts of the direct children whose
tag is `name`. -/
def XNode.childTexts (t : XNode) (name : String) : List String :=
  (t.children.filter (fun c => c.tag = name)).filterMap XNode.text

/-- `result.xpath("//name/text()")`: the texts of every node of the tree
whose tag is `name`. -/
def XNode.descTexts (t : XNode) (name : String) : List String :=
  (t.selfAndDescendants.filter (fun c => c.tag = name)).filterMap XNode.text

/-- `_get_data_for_field(result, field_name, get_text=True)`
(auto.py:309-316): the strict child query wins when non-empty, otherwise the
tree-wide query. -/
def getDataForFieldText (t : XNode) (name : String) : List String :=
  let strictResult := t.childTexts name
  if strictResult.length ≠ 0 then strictResult else t.descTexts name

/-- `_get_data_for_field(result, field_name)` without text extraction
(auto.py:309-316): the matching nodes themselves. -/
def getDataForFieldNodes (t : XNode) (name : String) : List XNode :=
  let strictResult := t.children.filter (fun c => c.tag = name)
  if strictResult.length ≠ 0 then strictResult
  else t.selfAndDescendants.filter (fun c => c.tag = name)

/-- Modelled from the spec: `first` lives in utils.py, absent from src/; the
doc comment of `last` in lifetime.py:73-81 mirrors it: the first element of
the list, None when empty. -/
def pyFirst (l : List String) : Option String :=
  l.head?

/-- `last` (lifetime.py:73-81): the last element, None when empty. -/
def pyLast (l : List String) : Option String :=
  l.getLast?

/-- The TypeError raised by `_get_data` for a missing required field
(auto.py:269, 296, 305); the spec names this condition
MissingRequiredField. -/
inductive GetDataError where
  | typeError (msg : String)
deriving DecidableEq, Repr

/-- `_get_data` (auto.py:298-307), scalar branch, `for_list=False`: the
first text match for the field; a missing value for a required,
non-contextual, requiredness-1.0 field raises TypeError, a missing value
otherwise yields no data. -/
def getDataScalar (fieldName : String) (required contextual : Bool) (requiredness : ℚ)
    (result : XNode) : Except GetDataError (Option String) :=
  match pyFirst (getDataForFieldText result fieldName) with
  | none =>
    if required = true ∧ contextual = false ∧ requiredness = 1 then
      .error (.typeError ("Could not find element for " ++ fieldName))
    else .ok none
  | some v => .ok (some v)

/-- The per-field `try/except TypeError` of `interpret` (auto.py:242-249):
an error is logged and the field contributes nothing. -/
def okOrNone {α : Type} (e : Except GetDataError (Option α)) : Option α :=
  match e with
  | .ok v => v
  | .error _ => none

/-! ### The C2 schema

`BaseAutoParser.interpret` is generic over the model; it is embedded at a
representative schema without a `dimensions` attribute (so the
raw_value/raw_units branches of auto.py:224-238 are skipped):

  class AModel(BaseModel):
      xf = StringType(required=True)                  # requiredness 1.0, not contextual
      cf = StringType(required=True, contextual=True)
      zf = StringType()
-/

/-- A record of the AModel schema. -/
structure AModelRec where
  xf : Option String
  cf : Option String
  zf : Option String
  recordMethod : Option String := none
deriving DecidableEq, Repr

/-- `noncontextual_required_fulfilled` = `_required_fulfilled(strict=False)`
(base.py:707-741) on AModel: `xf` (required, requiredness 1.0, not
contextual) must differ from its default None; `cf` is required but
contextual, so the non-strict pass exempts it; `zf` is not required. -/
def AModel_ncrf (r : AModelRec) : Bool :=
  r.xf.isSome

/-- `BaseAutoParser.interpret` (auto.py:214-258) on one result tree of the
AModel schema.  Each field is fetched through `_get_data` under the
per-field catch; a record is instantiated when any field produced data, and
yielded only when `noncontextual_required_fulfilled` holds, stamped with the
class name of the parser. -/
def AModel_interpretOne (className : String) (result : XNode) : List AModelRec :=
  let xv := okOrNone (getDataScalar ("xf") true false 1 result)
  let cv := okOrNone (getDataScalar ("cf") true true 1 result)
  let zv := okOrNone (getDataScalar ("zf") false false 1 result)
  if xv.isSome || cv.isSome || zv.isSome then
    let inst : AModelRec := { xf := xv, cf := cv, zf := zv }
    if AModel_ncrf inst then [{ inst with recordMethod := some className }] else []
  else []

/-- `interpret` over the full `results` argument (auto.py:214-221: a non-list
result is wrapped, then each result is processed in turn). -/
def AModel_interpret (className : String) (results : List XNode) : List AModelRec :=
  results.flatMap (AModel_interpretOne className)

/-! ## The delayed-lifetime table parser (tadf_models/models/lifetime.py)

`DelayedLifetime(TimeModel, FluorescenceLifetime)` collects fields from
TimeModel (the quantity-model base: raw_value, raw_units and the lazily
inferred value/units/error), from FluorescenceLifetime (model.py:309-318:
solvent, concentration, concentration_units, temperature_units, apparatus,
and value/units/temperature which are overridden), and from its own body
(specifier, compound, temperature, room_temperature).

Modelled from the spec: the quantity-model base model/units/quantity_model.py
is absent from src/; per the spec, raw_value and raw_units are required
contextual string fields and value/units/error are lazily inferred,
non-blocking fields; the inferred fields are omitted from the embedded
record (the interpret loop excludes them and the non-strict required check
exempts them as contextual). -/

/-- A record of the Apparatus schema (model.py:199-201). -/
structure ApparatusRec where
  aname : Option String
deriving DecidableEq, Repr

/-- A record of the ThemeCompound schema (model.py:153-161): three set-typed
fields, each modelled as the list of extracted strings. -/
structure ThemeCompoundRec where
  names : Option (List String)
  labels : Option (List String)
  roles : Option (List String)
deriving DecidableEq, Repr

/-- A record of the Temperature schema (condition.py:100-105). -/
structure TemperatureRec where
  rawValue : Option String
  rawUnits : Option String
  specifier : Option String
deriving DecidableEq, Repr

/-- A record of the RoomTemperature schema (condition.py:108-111). -/
structure RoomTemperatureRec where
  roomTemperature : Option String
deriving DecidableEq, Repr

/-- A record of the DelayedLifetime schema (lifetime.py:206-219). -/
structure DelayedLifetimeRec where
  rawValue : Option String
  rawUnits : Option String
  solvent : Option String
  concentration : Option String
  concentrationUnits : Option String
  temperatureUnits : Option String
  apparatus : Option ApparatusRec
  specifier : Option String
  compound : Option ThemeCompoundRec
  temperature : Option TemperatureRec
  roomTemperature : Option RoomTemperatureRec
  recordMethod : Option String := none
deriving DecidableEq, Repr

/-- `_get_data` (auto.py:289-297) for a set-of-strings field such as
`ThemeCompound.names` (not required): all text matches, no data when none. -/
def getDataSetStr (fieldName : String) (result : XNode) : Option (List String) :=
  let fr := getDataForFieldText result fieldName
  if fr.isEmpty then none else some fr

/-- `_get_data` (auto.py:260-288) for the `compound` field (a ModelType of
ThemeCompound, not required): the first matching node, recursively
interpreted through the subfields names/labels/roles; no node or no subfield
data yields no record. -/
def getDataCompound (result : XNode) : Option ThemeCompoundRec :=
  match (getDataForFieldNodes result ("compound")).head? with
  | none => none
  | some node =>
    let ns := getDataSetStr ("names") node
    let ls := getDataSetStr ("labels") node
    let rs := getDataSetStr ("roles") node
    if ns.isSome || ls.isSome || rs.isSome then
      some { names := ns, labels := ls, roles := rs }
    else none

/-- `_get_data` (auto.py:260-288) for the `apparatus` field (a ModelType of
Apparatus, not required; its one subfield `name` is not required). -/
def getDataApparatus (result : XNode) : Option ApparatusRec :=
  match (getDataForFieldNodes result ("apparatus")).head? with
  | none => none
  | some node =>
    match okOrNone (getDataScalar ("name") false false 1 node) with
    | some v => some { aname := some v }
    | none => none

/-- `_get_data` (auto.py:260-288) for the `temperature` field (a ModelType
of Temperature, not required at the DelayedLifetime level): inside a present
node the subfields raw_value, raw_units and specifier are all required,
non-contextual, requiredness 1.0 (condition.py:100-105), so their absence
raises out of the whole field extraction. -/
def getDataTemperature (result : XNode) : Except GetDataError (Option TemperatureRec) :=
  match (getDataForFieldNodes result ("temperature")).head? with
  | none => .ok none
  | some node => do
    let rv ← getDataScalar ("raw_value") true false 1 node
    let ru ← getDataScalar ("raw_units") true false 1 node
    let sp ← getDataScalar ("specifier") true false 1 node
    if rv.isSome || ru.isSome || sp.isSome then
      pure (some { rawValue := rv, rawUnits := ru, specifier := sp })
    else pure none

/-- `_get_data` (auto.py:260-288) for the `room_temperature` field (a
ModelType of RoomTemperature, not required; its subfield room_temperature is
required, non-contextual, condition.py:108-111). -/
def getDataRoomTemperature (result : XNode) : Except GetDataError (Option RoomTemperatureRec) :=
  match (getDataForFieldNodes result ("room_temperature")).head? with
  | none => .ok none
  | some node => do
    let rt ← getDataScalar ("room_temperature") true false 1 node
    match rt with
    | some v => pure (some { roomTemperature := some v })
    | none => pure none

/-- `noncontextual_required_fulfilled` on DelayedLifetime: the one required,
non-contextual, requiredness-1.0 field is `specifier` (lifetime.py:210-211);
raw_value and raw_units are required but contextual (exempt in the
non-strict pass) and no model field is required. -/
def DelayedLifetime_ncrf (r : DelayedLifetimeRec) : Bool :=
  r.specifier.isSome

/-- `TauDTableParser.interpret` (lifetime.py:172-203): raw_value and
raw_units are taken as the `last` match (discarding the earlier,
prompt-component values), every remaining field goes through `_get_data`
under the per-field catch, the record is instantiated (the raw_value and
raw_units keys are always present, so an instance is always built), and it
is yielded when `noncontextual_required_fulfilled` holds, stamped with the
parser class name. -/
def TauD_interpret (className : String) (result : XNode) : List DelayedLifetimeRec :=
  let rawValue := pyLast (getDataForFieldText result ("raw_value"))
  let rawUnits := pyLast (getDataForFieldText result ("raw_units"))
  let solvent := okOrNone (getDataScalar ("solvent") false false 1 result)
  let concentration := okOrNone (getDataScalar ("concentration") false false 1 result)
  let concentrationUnits := okOrNone (getDataScalar ("concentration_units") false false 1 result)
  let temperatureUnits := okOrNone (getDataScalar ("temperature_units") false false 1 result)
  let apparatus := getDataApparatus result
  let sp := okOrNone (getDataScalar ("specifier") true false 1 result)
  let compound := getDataCompound result
  let temperature := okOrNone (getDataTemperature result)
  let roomTemperature := okOrNone (getDataRoomTemperature result)
  let inst : DelayedLifetimeRec :=
    { rawValue := rawValue, rawUnits := rawUnits, solvent := solvent,
      concentration := concentration, concentrationUnits := concentrationUnits,
      temperatureUnits := temperatureUnits, apparatus := apparatus,
      specifier := sp, compound := compound, temperature := temperature,
      roomTemperature := roomTemperature }
  if DelayedLifetime_ncrf inst then [{ inst with recordMethod := some className }] else []

/-- Modelled from the spec: the result tree produced by the root phrase of
TauDTableParser (lifetime.py:118-170) on the scenario cell with header
τp/τd with unit ns in brackets and row value 145/3100.  The parser-element
engine (parse/elements.py) is absent from src/; per the combinator semantics
of the spec, the specifier branch hides the prompt part and captures τd as
`specifier` and the bracket-stripped ns as `raw_units`, and the value phrase
captures the two slash-separated numbers as successive `raw_value` nodes in
token order. -/
def tauDScenarioTree : XNode :=
  .mk ("root_phrase") none
    [ .mk ("specifier") (some ("τd")) []
    , .mk ("raw_units") (some ("ns")) []
    , .mk ("raw_value") (some ("145")) []
    , .mk ("raw_value") (some ("3100")) [] ]

/-! ## The serialization schema (C5)

`serialize` (base.py:743-757) and `deserialize` (base.py:389-417) are
embedded at a representative schema exercising each field kind the claim
names (scalar string and float, a set, a list of nested models and a nested
model):

  class SInner(BaseModel):
      p = StringType()
      q = FloatType()

  class SOuter(BaseModel):
      name = StringType()
      val = FloatType()
      tags = SetType(StringType())
      items = ListType(ModelType(SInner))
      child = ModelType(SInner)
-/

/-- A record of the SInner schema. -/
structure SInnerRec where
  p : Option String
  q : Option ℚ
deriving DecidableEq, Repr

/-- A record of the SOuter schema.  The set field `tags` is modelled as a
list enumerating the set in iteration order; a fresh record holds the
SetType default set() and the ListType default [], both `some []`. -/
structure SOuterRec where
  name : Option String
  val : Option ℚ
  tags : Option (List String)
  items : Option (List SInnerRec)
  child : Option SInnerRec
deriving DecidableEq, Repr

/-- A serialized Python value: a string, a float, a list or a dict (an
ordered mapping, as Python dicts preserve insertion order). -/
inductive PyVal where
  | s (v : String)
  | f (v : ℚ)
  | vlist (l : List PyVal)
  | dict (entries : List (String × PyVal))

/-- The `p` entry of the SInner data dict: a serialized string value is
dropped when it is None or the empty string (base.py:748-756). -/
def pData : Option String → List (String × PyVal)
  | some v => if v = "" then [] else [(("p"), PyVal.s v)]
  | none => []

/-- The `q` entry of the SInner data dict: a float value is dropped only
when it is None. -/
def qData : Option ℚ → List (String × PyVal)
  | some v => [(("q"), PyVal.f v)]
  | none => []

/-- The inner data dict of `SInner.serialize` (base.py:743-757): each
non-None field value is serialized, then dropped when it is None, the empty
string or the empty list (`field.null` is False everywhere here). -/
def SInner_serializeData (r : SInnerRec) : List (String × PyVal) :=
  pData r.p ++ qData r.q

/-- `SInner.serialize`: one outer key carrying the type name. -/
def SInner_serialize (r : SInnerRec) : PyVal :=
  .dict [(("SInner"), .dict (SInner_serializeData r))]

/-- The `name` entry of the SOuter data dict (base.py:743-757, entries of
the inner data dict of `SOuter.serialize`): dropped when None or the empty
string. -/
def nameData : Option String → List (String × PyVal)
  | some v => if v = "" then [] else [(("name"), PyVal.s v)]
  | none => []

/-- The `val` entry of the SOuter data dict. -/
def valData : Option ℚ → List (String × PyVal)
  | some v => [(("val"), PyVal.f v)]
  | none => []

/-- The `tags` entry of the SOuter data dict: `SetType.serialize` yields
the sorted list of elements, or None for an empty or absent set. -/
def tagsData (tg : Option (List String)) : List (String × PyVal) :=
  match SetType_serialize id tg with
  | some sorted => [(("tags"), PyVal.vlist (sorted.map PyVal.s))]
  | none => []

/-- The `items` entry of the SOuter data dict: each element is serialized,
and a falsy (empty) list is dropped. -/
def itemsData : Option (List SInnerRec) → List (String × PyVal)
  | some l => if l.isEmpty then [] else [(("items"), PyVal.vlist (l.map SInner_serialize))]
  | none => []

/-- The `child` entry of the SOuter data dict: the nested record serializes
to its own dict, which is kept even when empty. -/
def childData : Option SInnerRec → List (String × PyVal)
  | some c => [(("child"), SInner_serialize c)]
  | none => []

/-- The SOuter data dict is the fields in declaration order. -/
def SOuter_serializeData (r : SOuterRec) : List (String × PyVal) :=
  nameData r.name ++ valData r.val ++ tagsData r.tags ++ itemsData r.items ++
    childData r.child

/-- `SOuter.serialize`. -/
def SOuter_serialize (r : SOuterRec) : PyVal :=
  .dict [(("SOuter"), .dict (SOuter_serializeData r))]

/-- `_flatten_serialized` (base.py:403-412): dict values recurse with the
key prepended, other values terminate a keypath. -/
def flattenSerialized : List (String × PyVal) → List (List String × PyVal)
  | [] => []
  | (k, v) :: rest =>
    (match v with
     | .dict d => (flattenSerialized d).map (fun kv => (k :: kv.1, kv.2))
     | other => [([k], other)]) ++ flattenSerialized rest

/-- Python str.lower over the characters. -/
def pyLower (str1 : String) : String :=
  ⟨str1.data.map Char.toLower⟩

/-- `_clean_key` (base.py:414-417): key components that change under
lowercasing (the capitalized type names) are dropped. -/
def cleanKey (key : List String) : List String :=
  key.filter (fun k => pyLower k = k)

/-- The empty SInner record created by `_get_item(create_defaults=True)`
(base.py:549-588) when a keypath assignment drills into an absent nested
record. -/
def emptySInnerRec : SInnerRec :=
  { p := none, q := none }

/-- One keypath assignment of `SInner.deserialize` (`record[key] = value`,
base.py:394-400, through StringType.process and FloatType.process).  Only
keypaths that `serialize` can produce occur; an unknown field name in Python
raises KeyError, which no serialize output triggers. -/
def applyAssignInner (r : SInnerRec) (kv : List String × PyVal) : SInnerRec :=
  match kv.1, kv.2 with
  | ["p"], .s v => { r with p := some v }
  | ["q"], .f v => { r with q := some v }
  | _, _ => r

/-- The flattened, type-name-cleaned assignment list of `deserialize`
(base.py:392-393). -/
def cleanedAssignments (pv : PyVal) : List (List String × PyVal) :=
  let flat := match pv with
    | .dict d => flattenSerialized d
    | _ => []
  flat.map (fun kv => (cleanKey kv.1, kv.2))

/-- `SInner.deserialize` (base.py:389-401): flatten, clean the type-name
components, then assign each keypath onto a fresh record. -/
def SInner_deserialize (pv : PyVal) : SInnerRec :=
  (cleanedAssignments pv).foldl applyAssignInner emptySInnerRec

/-- The fresh SOuter record `cls()` of base.py:391: scalars and the nested
model default to None, the set field to set() and the list field to []. -/
def freshSOuterRec : SOuterRec :=
  { name := none, val := none, tags := some [], items := some [], child := none }

/-- One keypath assignment of `SOuter.deserialize`.  The `items` keypath
hits the ListType-of-ModelType branch of base.py:395-398 and deserializes
each element; the `child.p` and `child.q` keypaths go through the keypath
`__setitem__` (base.py:590-605), which creates the nested record on first
use; the set assignment rebuilds the set from the serialized list
(SetType.__set__, base.py:267-273). -/
def applyAssignOuter (r : SOuterRec) (kv : List String × PyVal) : SOuterRec :=
  match kv.1, kv.2 with
  | ["name"], .s v => { r with name := some v }
  | ["val"], .f v => { r with val := some v }
  | ["tags"], .vlist l =>
    { r with tags := some (l.filterMap (fun e => match e with
        | PyVal.s v => some v
        | _ => none)) }
  | ["items"], .vlist l => { r with items := some (l.map SInner_deserialize) }
  | ["child", sub], v =>
    let c := r.child.getD emptySInnerRec
    (match sub, v with
     | "p", PyVal.s pv2 => { r with child := some { c with p := some pv2 } }
     | "q", PyVal.f qv => { r with child := some { c with q := some qv } }
     | _, _ => r)
  | _, _ => r

/-- `SOuter.deserialize` (base.py:389-401). -/
def SOuter_deserialize (pv : PyVal) : SOuterRec :=
  (cleanedAssignments pv).foldl applyAssignOuter freshSOuterRec

/-! ### Segment view of the serialized assignments (proof infrastructure)

The assignment list `cleanedAssignments (SOuter_serialize r)` decomposes
into one segment per field, in declaration order; each segment is proven
below to equal the corresponding part of the flattened serialization. -/

/-- The assignment segment contributed by the field `name`. -/
def nameSeg : Option String → List (List String × PyVal)
  | some v => if v = "" then [] else [(["name"], PyVal.s v)]
  | none => []

/-- The assignment segment contributed by the field `val`. -/
def valSeg : Option ℚ → List (List String × PyVal)
  | some v => [(["val"], PyVal.f v)]
  | none => []

/-- The assignment segment contributed by the field `tags`. -/
def tagsSeg (tg : Option (List String)) : List (List String × PyVal) :=
  match SetType_serialize id tg with
  | some sorted => [(["tags"], PyVal.vlist (sorted.map PyVal.s))]
  | none => []

/-- The assignment segment contributed by the field `items`. -/
def itemsSeg : Option (List SInnerRec) → List (List String × PyVal)
  | some l => if l.isEmpty then [] else [(["items"], PyVal.vlist (l.map SInner_serialize))]
  | none => []

/-- The assignment segment contributed by the subfield `child.p`. -/
def pSeg : Option String → List (List String × PyVal)
  | some v => if v = "" then [] else [(["child", "p"], PyVal.s v)]
  | none => []

/-- The assignment segment contributed by the subfield `child.q`. -/
def qSeg : Option ℚ → List (List String × PyVal)
  | some v => [(["child", "q"], PyVal.f v)]
  | none => []

/-- The assignment segment contributed by the field `child`. -/
def childSeg : Option SInnerRec → List (List String × PyVal)
  | some c => pSeg c.p ++ qSeg c.q
  | none => []

/-- A data-dict fragment as `deserialize` sees it under the SOuter type
name: flattened, the type-name key component prepended, then cleaned. -/
def segMap (l : List (String × PyVal)) : List (List String × PyVal) :=
  (flattenSerialized l).map (fun kv => (cleanKey (("SOuter") :: kv.1), kv.2))

/-- The value the roundtrip leaves in a string field: empty strings are
dropped by serialization, everything else survives. -/
def pWrite : Option String → Option String
  | some v => if v = "" then none else some v
  | none => none

/-- `FloatType.is_empty` (base.py:142-145) and the record-level emptiness of
an SInner record (base.py:1293-1298). -/
def SInner_isEmptyRec (r : SInnerRec) : Bool :=
  stringIsEmpty r.p && r.q.isNone

/-- Agreement of a deserialized SInner record with the original on every
non-empty field (empty means None or the empty string for strings, None for
floats, per the is_empty methods of base.py). -/
def agreesInner (d o : SInnerRec) : Prop :=
  (stringIsEmpty o.p = false → d.p = o.p) ∧ (o.q.isSome = true → d.q = o.q)

/-- Agreement of a deserialized SOuter record with the original on every
non-empty field, recursively: equal scalars, equal sets (as sets), lists of
nested models of equal length agreeing elementwise, and an agreeing nested
record when the original nested record is non-empty. -/
def agreesOuter (d o : SOuterRec) : Prop :=
  (stringIsEmpty o.name = false → d.name = o.name) ∧
  (o.val.isSome = true → d.val = o.val) ∧
  (∀ ts, o.tags = some ts → ts ≠ [] → ∃ ds, d.tags = some ds ∧ ds.toFinset = ts.toFinset) ∧
  (∀ l, o.items = some l → l ≠ [] → ∃ dl, d.items = some dl ∧ List.Forall₂ agreesInner dl l) ∧
  (∀ c, o.child = some c → SInner_isEmptyRec c = false → ∃ dc, d.child = some dc ∧ agreesInner dc c)

/-! ## Concrete records used by counterexamples and witnesses -/

/-- C1 counterexample: an Outer record holding a partially-filled (hence
non-default) nested record. -/
def c1A : OuterRec :=
  { emptyOuterRec with inner := some { a := none, b := some ("y") } }

/-- C1 counterexample: the Inner record merged into `c1A`. -/
def c1B : InnerRec :=
  { a := some ("x"), b := none }

/-- C1 witness: an Outer record with `x` already set. -/
def c1Aw : OuterRec :=
  { emptyOuterRec with x := some ("v") }

/-- C3: a contextually fulfilled Outer record (x set, nested record present
and fulfilled). -/
def c3A : OuterRec :=
  { emptyOuterRec with x := some ("v"), inner := some { a := some ("w"), b := none } }

/-- C4 counterexample: record X, confidence 0.9. -/
def c4X : OuterRec :=
  { emptyOuterRec with x := some ("v"), confSelf := some (9/10) }

/-- C4 counterexample: record Y with the same field values, confidence 0.5,
a non-strict subset of X. -/
def c4Y : OuterRec :=
  { emptyOuterRec with x := some ("v"), confSelf := some (1/2) }

/-- C4 witness: record X, confidence 0.9. -/
def c4Xw : OuterRec :=
  { emptyOuterRec with x := some ("v"), y := some ("w"), confSelf := some (9/10) }

/-- C4 witness: record Y, a proper subset of `c4Xw`, confidence 0.5. -/
def c4Yw : OuterRec :=
  { emptyOuterRec with x := some ("v"), confSelf := some (1/2) }

/-! # Theorems -/

/-! ## C7: the max_power boundary (code bug) -/

/-- C7: `construct_unit_element` raises ValueError at `max_power = 2`
(the `max_power <= 2` guard of auto.py:73-74), although the message of that
very error reads "max_power should be greater than or equal to 2" and the
docstring declares the supported range [2, 9]; the powers 3 and 9 build the
element and 10 errors.  Evaluated at the Time dimension of units/times.py. -/
theorem construct_unit_element_boundary_bug :
    construct_unit_element (some timeDimensions) (some 2) = .error .valueErrorLow ∧
    (construct_unit_element (some timeDimensions) (some 3)).isOk = true ∧
    (construct_unit_element (some timeDimensions) (some 9)).isOk = true ∧
    construct_unit_element (some timeDimensions) (some 10) = .error .valueErrorHigh :=
  ⟨rfl, rfl, rfl, rfl⟩

/-! ## C10: deterministic set serialization -/

/-- C10: `SetType.serialize` returns None on a None or empty set and
otherwise the sorted list of the serialized elements; consequently any two
iteration orders of equal sets serialize identically. -/
theorem setType_serialize_deterministic (f : String → String) (l1 l2 : List String)
    (hperm : l1.Perm l2) :
    SetType_serialize f none = none ∧
    (l1 = [] → SetType_serialize f (some l1) = none) ∧
    (l1 ≠ [] → ∃ out, SetType_serialize f (some l1) = some out ∧
        out.Sorted pyStrLeRel ∧ out.Perm (l1.map f)) ∧
    SetType_serialize f (some l1) = SetType_serialize f (some l2) := by
  refine ⟨rfl, ?_, ?_, ?_⟩
  · intro h; subst h; rfl
  · intro h
    have hl : ¬(l1.length = 0) := by simpa using h
    refine ⟨(l1.map f).insertionSort pyStrLeRel, ?_, List.sorted_insertionSort _ _,
      List.perm_insertionSort _ _⟩
    simp [SetType_serialize, hl]
  · by_cases h : l1 = []
    · have h2 : l2 = [] := by
        subst h
        exact hperm.symm.eq_nil

      rw [h, h2]
    · have h2 : l2 ≠ [] := by
        intro he
        exact h (by simpa [he] using hperm)
      have hl1 : ¬(l1.length = 0) := by simpa using h
      have hl2 : ¬(l2.length = 0) := by simpa using h2
      simp only [SetType_serialize, hl1, hl2, if_neg]
      congr 2
      apply List.eq_of_perm_of_sorted (r := pyStrLeRel)
      · exact (List.perm_insertionSort _ _).trans
          ((hperm.map f).trans (List.perm_insertionSort _ _).symm)
      · exact List.sorted_insertionSort _ _
      · exact List.sorted_insertionSort _ _

/-- Witness for C10 at a concrete pair of iteration orders. -/
theorem setType_serialize_deterministic_witness :
    (["b", "a"] : List String).Perm ["a", "b"] ∧
    SetType_serialize id (some ["b", "a"]) = SetType_serialize id (some ["a", "b"]) := by
  have h : (["b", "a"] : List String).Perm ["a", "b"] := List.Perm.swap _ _ _
  exact ⟨h, (setType_serialize_deterministic id _ _ h).2.2.2⟩

/-! ## C9: sort_merge_candidates -/

/-- C9: with `adjust_by_confidence=False` the call raises TypeError for any
(in particular any non-empty) candidate list, because the key lambda is
passed positionally to `sorted`; only the True path returns a list, a
permutation of the input sorted ascending by
distance / (total_confidence + 0.01). -/
theorem sort_merge_candidates_keyword_only {α : Type} (tc : α → Option ℚ)
    (mc : List (ℚ × α)) (_hne : mc ≠ []) :
    sort_merge_candidates tc mc false = .error .typeError ∧
    ∃ out, sort_merge_candidates tc mc true = .ok out ∧
      out.Perm mc ∧ out.Sorted (candKeyRel tc) := by
  refine ⟨rfl, mc.insertionSort (candKeyRel tc), rfl,
    List.perm_insertionSort _ _, List.sorted_insertionSort _ _⟩

/-- Witness for C9 at a concrete one-element candidate list. -/
theorem sort_merge_candidates_keyword_only_witness :
    sort_merge_candidates (fun _ : Unit => some 1) [((1 : ℚ), ())] false =
      .error .typeError :=
  (sort_merge_candidates_keyword_only (fun _ => some 1) [((1 : ℚ), ())]
    (List.cons_ne_nil _ _)).1

/-! ## C6: the confidence model -/

/-- C6 counterexample: on the all-default record the code skips the empty
required field `t` because its requiredness is 1.0, giving total confidence
3/4 (from the soft-required empty `s`), while the formula of the claim
multiplies by (1 - 1.0) = 0 for `t` and yields 0. -/
theorem total_confidence_requiredness_counterexample :
    OuterRec.total_confidence emptyOuterRec = 3/4 ∧
    OuterRec.claimTotalConfidence emptyOuterRec = 0 ∧
    ¬ OuterRec.total_confidence emptyOuterRec = OuterRec.claimTotalConfidence emptyOuterRec := by
  refine ⟨?_, ?_, ?_⟩ <;>
    norm_num [OuterRec.total_confidence, OuterRec.claimTotalConfidence,
      OuterRec.minValuePool, OuterRec.requirednessFactor, OuterRec.claimRequirednessFactor,
      emptyOuterRec, minOpt, stringIsEmpty, outerFieldReqs, OuterRec.fieldIsEmpty,
      List.filter]

/-- C6 as amended: total_confidence is the explicit self-confidence when
set, else the pooled per-field confidence (minimum, nulls ignored, 1.0 when
empty) times the product, over required-but-empty fields whose requiredness
differs from 1.0, of (1 - requiredness), recursively through present nested
records. -/
theorem total_confidence_amended (r : OuterRec) :
    r.total_confidence = r.amendedTotalConfidence := by
  unfold OuterRec.total_confidence OuterRec.amendedTotalConfidence
  cases hc : r.confSelf with
  | some c => rfl
  | none =>
    have hd4 : decide ((1 : ℚ)/4 ≠ 1) = true := by
      simp only [decide_eq_true_eq]
      norm_num
    have hd1 : decide ((1 : ℚ) ≠ 1) = false := by
      simp
    unfold OuterRec.requirednessFactor OuterRec.amendedRequirednessFactor
      InnerRec.requirednessFactor InnerRec.claimRequirednessFactor
    simp only [outerFieldReqs, List.filter, hd4, hd1, OuterRec.fieldIsEmpty,
      Bool.true_and, Bool.false_and, Bool.and_false, Bool.and_true]
    by_cases hs : stringIsEmpty r.s = true <;>
      cases hi : r.inner <;>
        simp [hs, hi]

/-- Witness for C6 as amended, at the all-default record. -/
theorem total_confidence_amended_witness :
    OuterRec.total_confidence emptyOuterRec = OuterRec.amendedTotalConfidence emptyOuterRec :=
  total_confidence_amended emptyOuterRec

/-! ## C8: the delayed-lifetime table scenario -/

/-- C8: on the result tree of the scenario cell (header τp/τd with unit ns,
row 145/3100) the TauDTableParser interpret yields exactly one record whose
raw_value is the second slash-delimited value 3100 with raw_units ns,
discarding the prompt value 145, stamped with the parser class name. -/
theorem tauD_table_scenario_second_value :
    TauD_interpret ("TauDTableParser") tauDScenarioTree =
      [{ rawValue := some ("3100"), rawUnits := some ("ns"), solvent := none,
         concentration := none, concentrationUnits := none, temperatureUnits := none,
         apparatus := none, specifier := some ("τd"), compound := none,
         temperature := none, roomTemperature := none,
         recordMethod := some ("TauDTableParser") }] := by
  rfl

/-! ## C2: soundness of BaseAutoParser.interpret -/

/-- C2: every record yielded by interpret satisfies
noncontextual_required_fulfilled and carries the class name of its parser in
record_method; and for every result tree without a subtree for the required,
non-contextual, requiredness-1.0 field `xf`, the internal TypeError of
`_get_data` is raised but the candidate is simply not yielded — interpret
returns the empty sequence instead of propagating. -/
theorem autoparser_interpret_sound (className : String) (results : List XNode) :
    (∀ r ∈ AModel_interpret className results,
        AModel_ncrf r = true ∧ r.recordMethod = some className) ∧
    (∀ t ∈ results, getDataForFieldText t ("xf") = [] →
        getDataScalar ("xf") true false 1 t =
          .error (.typeError ("Could not find element for " ++ "xf")) ∧
        AModel_interpretOne className t = []) := by
  constructor
  · intro r hr
    simp only [AModel_interpret, List.mem_flatMap] at hr
    obtain ⟨t, _, hrt⟩ := hr
    simp only [AModel_interpretOne] at hrt
    split at hrt
    · split at hrt
      case isTrue h2 =>
        simp only [List.mem_singleton] at hrt
        subst hrt
        exact ⟨by simpa [AModel_ncrf] using h2, rfl⟩
      case isFalse => simp at hrt
    · simp at hrt
  · intro t _ hmiss
    have herr : getDataScalar ("xf") true false 1 t =
        .error (.typeError ("Could not find element for " ++ "xf")) := by
      unfold getDataScalar
      rw [hmiss]
      norm_num [pyFirst]
    refine ⟨herr, ?_⟩
    unfold AModel_interpretOne
    rw [herr]
    simp [okOrNone, AModel_ncrf]

/-- Witness for C2 at a concrete result tree lacking the required field. -/
theorem autoparser_interpret_sound_witness :
    AModel_interpretOne ("AutoSentenceParser")
      (XNode.mk ("root") none [XNode.mk ("cf") (some ("c")) []]) = [] := by
  refine ((autoparser_interpret_sound ("AutoSentenceParser")
    [XNode.mk ("root") none [XNode.mk ("cf") (some ("c")) []]]).2 _ ?_ ?_).2
  · exact List.mem_singleton.mpr rfl
  · rfl

/-! ## Value-preservation toolkit for the merge proofs

The confidence bookkeeping of merge_contextual rewrites only the confidence
slots; the following projection lemmas record that the field values (and the
no-merge ranges) pass through unchanged. -/

theorem mergeConfidenceX_x (self other : OuterRec) :
    (self.mergeConfidenceX other).x = self.x := by
  unfold OuterRec.mergeConfidenceX OuterRec.setConfX
  repeat' split
  all_goals rfl

theorem mergeConfidenceX_y (self other : OuterRec) :
    (self.mergeConfidenceX other).y = self.y := by
  unfold OuterRec.mergeConfidenceX OuterRec.setConfX
  repeat' split
  all_goals rfl

theorem mergeConfidenceX_s (self other : OuterRec) :
    (self.mergeConfidenceX other).s = self.s := by
  unfold OuterRec.mergeConfidenceX OuterRec.setConfX
  repeat' split
  all_goals rfl

theorem mergeConfidenceX_t (self other : OuterRec) :
    (self.mergeConfidenceX other).t = self.t := by
  unfold OuterRec.mergeConfidenceX OuterRec.setConfX
  repeat' split
  all_goals rfl

theorem mergeConfidenceX_inner (self other : OuterRec) :
    (self.mergeConfidenceX other).inner = self.inner := by
  unfold OuterRec.mergeConfidenceX OuterRec.setConfX
  repeat' split
  all_goals rfl

theorem mergeConfidenceX_noMergeInner (self other : OuterRec) :
    (self.mergeConfidenceX other).noMergeInner = self.noMergeInner := by
  unfold OuterRec.mergeConfidenceX OuterRec.setConfX
  repeat' split
  all_goals rfl

theorem mergeConfidenceInner_x (self other : OuterRec) :
    (self.mergeConfidenceInner other).x = self.x := by
  unfold OuterRec.mergeConfidenceInner OuterRec.setConfInner
  repeat' split
  all_goals rfl

theorem mergeConfidenceInner_y (self other : OuterRec) :
    (self.mergeConfidenceInner other).y = self.y := by
  unfold OuterRec.mergeConfidenceInner OuterRec.setConfInner
  repeat' split
  all_goals rfl

theorem mergeConfidenceInner_s (self other : OuterRec) :
    (self.mergeConfidenceInner other).s = self.s := by
  unfold OuterRec.mergeConfidenceInner OuterRec.setConfInner
  repeat' split
  all_goals rfl

theorem mergeConfidenceInner_t (self other : OuterRec) :
    (self.mergeConfidenceInner other).t = self.t := by
  unfold OuterRec.mergeConfidenceInner OuterRec.setConfInner
  repeat' split
  all_goals rfl

theorem mergeConfidenceInner_inner_isSome (self other : OuterRec) :
    (self.mergeConfidenceInner other).inner.isSome = self.inner.isSome := by
  unfold OuterRec.mergeConfidenceInner OuterRec.setConfInner
  repeat' split
  all_goals simp_all

theorem mergeConfidenceSelf_x (self other : OuterRec) :
    (self.mergeConfidenceSelf other).x = self.x := rfl

theorem mergeConfidenceSelf_y (self other : OuterRec) :
    (self.mergeConfidenceSelf other).y = self.y := rfl

theorem mergeConfidenceSelf_s (self other : OuterRec) :
    (self.mergeConfidenceSelf other).s = self.s := rfl

theorem mergeConfidenceSelf_t (self other : OuterRec) :
    (self.mergeConfidenceSelf other).t = self.t := rfl

theorem mergeConfidenceSelf_inner (self other : OuterRec) :
    (self.mergeConfidenceSelf other).inner = self.inner := rfl

theorem mergeConfidenceSelfInner_x (self : OuterRec) (other : InnerRec) :
    (self.mergeConfidenceSelfInner other).x = self.x := rfl

theorem mergeConfidenceSelfInner_y (self : OuterRec) (other : InnerRec) :
    (self.mergeConfidenceSelfInner other).y = self.y := rfl

theorem mergeConfidenceSelfInner_s (self : OuterRec) (other : InnerRec) :
    (self.mergeConfidenceSelfInner other).s = self.s := rfl

theorem mergeConfidenceSelfInner_t (self : OuterRec) (other : InnerRec) :
    (self.mergeConfidenceSelfInner other).t = self.t := rfl

theorem mergeConfidenceSelfInner_inner (self : OuterRec) (other : InnerRec) :
    (self.mergeConfidenceSelfInner other).inner = self.inner := rfl

theorem mergeConfidenceA_a (self other : InnerRec) :
    (self.mergeConfidenceA other).a = self.a := by
  unfold InnerRec.mergeConfidenceA InnerRec.setConfA
  repeat' split
  all_goals rfl

theorem mergeConfidenceA_b (self other : InnerRec) :
    (self.mergeConfidenceA other).b = self.b := by
  unfold InnerRec.mergeConfidenceA InnerRec.setConfA
  repeat' split
  all_goals rfl

theorem innerMergeConfidenceSelf_a (self other : InnerRec) :
    (self.mergeConfidenceSelf other).a = self.a := rfl

theorem innerMergeConfidenceSelf_b (self other : InnerRec) :
    (self.mergeConfidenceSelf other).b = self.b := rfl

theorem innerPyEq_refl (i : InnerRec) : i.pyEq i = true := by
  simp [InnerRec.pyEq]

theorem outerPyEq_refl (r : OuterRec) : r.pyEq r = true := by
  cases hi : r.inner <;> simp [OuterRec.pyEq, hi, innerPyEq_refl]

/-- A record update writing back the value a field already holds is the
identity. -/
theorem outer_update_inner_id (r : OuterRec) : { r with inner := r.inner } = r := by
  cases r
  rfl

/-- Two optional strings of opposite truthiness differ. -/
theorem truthyStr_ne (x y : Option String) (hx : truthyStr x = true)
    (hy : truthyStr y = false) : x ≠ y := by
  intro he
  rw [he, hy] at hx
  exact Bool.noConfusion hx

/-- The boolean outcome of an Inner-into-Inner contextual merge on an
unfulfilled record: the return is a boolean reporting exactly whether a
field value changed, and a False report means the record is untouched. -/
theorem inner_merge_contextual_bool (i o : InnerRec) (d : ℚ)
    (h : i.contextualFulfilled = false) :
    ∃ bv, (i.merge_contextual o d).2 = .b bv ∧
      (bv = true ↔ (i.merge_contextual o d).1.pyEq i = false) ∧
      (bv = false → (i.merge_contextual o d).1 = i) := by
  unfold InnerRec.merge_contextual
  rw [h]
  simp only [Bool.false_eq_true, if_false, InnerRec.shouldKeepBothRecords]
  split
  case isTrue hcomp =>
    split
    case isTrue hfill =>
      obtain ⟨hia, hoa, _, _⟩ := hfill
      refine ⟨true, rfl, ?_, by intro hf; exact absurd hf (by simp)⟩
      constructor
      · intro _
        have hxne : o.a ≠ i.a := truthyStr_ne o.a i.a hoa hia
        split
        · split <;>
            simp [InnerRec.pyEq, innerMergeConfidenceSelf_a, mergeConfidenceA_a, hxne]
        · simp_all
      · intro _; rfl
    case isFalse =>
      refine ⟨false, rfl, ?_, fun _ => rfl⟩
      simp [innerPyEq_refl]
  case isFalse =>
    refine ⟨false, rfl, ?_, fun _ => rfl⟩
    simp [innerPyEq_refl]

/-! ## C3: the return value of merge_contextual -/

/-- C3 as amended: merge_contextual returns a boolean reporting whether any
field value of self changed, except on a contextual-fulfilled record where
it returns the record itself (base.py:845-846); the ineligible-other-type
path returns the boolean False. -/
theorem merge_contextual_return_amended (A : OuterRec) (other : OuterRec ⊕ InnerRec) (d : ℚ) :
    (A.contextualFulfilled = true → A.merge_contextual other d = (A, .record A)) ∧
    (A.contextualFulfilled = false →
        ∃ bv, (A.merge_contextual other d).2 = .b bv ∧
          (bv = true ↔ (A.merge_contextual other d).1.pyEq A = false)) := by
  cases other with
  | inl o =>
    rw [show A.merge_contextual (Sum.inl o) d = A.mergeContextualSame o d from rfl]
    constructor
    · intro h
      unfold OuterRec.mergeContextualSame
      rw [h]
      simp
    · intro h
      unfold OuterRec.mergeContextualSame
      rw [h]
      simp only [Bool.false_eq_true, if_false, OuterRec.shouldKeepBothRecords]
      split
      case isFalse =>
        refine ⟨false, rfl, ?_⟩
        simp [outerPyEq_refl]
      case isTrue hcomp =>
        split
        case isTrue hc1 =>
          obtain ⟨hxa, hxo, _, _⟩ := hc1
          have hxne : o.x ≠ A.x := truthyStr_ne o.x A.x hxo hxa
          split
          case isTrue hc2 =>
            refine ⟨true, rfl, ?_⟩
            constructor
            · intro _
              split
              · split <;>
                  simp [OuterRec.pyEq, mergeConfidenceSelf_x, mergeConfidenceInner_x,
                    mergeConfidenceX_x, hxne]
              · simp_all
            · intro _; rfl
          case isFalse =>
            refine ⟨true, rfl, ?_⟩
            constructor
            · intro _
              split
              · split <;>
                  simp [OuterRec.pyEq, mergeConfidenceSelf_x, mergeConfidenceX_x, hxne]
              · simp_all
            · intro _; rfl
        case isFalse =>
          split
          case isTrue hc2 =>
            obtain ⟨hinone, hosome, _, _⟩ := hc2
            have hAn : A.inner = none := by
              simpa [Option.isNone_iff_eq_none] using hinone
            refine ⟨true, rfl, ?_⟩
            constructor
            · intro _
              have hsome : (({ A with inner := o.inner } : OuterRec).mergeConfidenceInner
                  o).inner.isSome = true := by
                rw [mergeConfidenceInner_inner_isSome]
                simpa using hosome
              obtain ⟨z, hz⟩ := Option.isSome_iff_exists.mp hsome
              split
              · split <;>
                  simp [OuterRec.pyEq, hz, hAn, mergeConfidenceSelf_inner]
              · simp_all
            · intro _; rfl
          case isFalse =>
            refine ⟨false, rfl, ?_⟩
            simp [outerPyEq_refl]
  | inr o =>
    rw [show A.merge_contextual (Sum.inr o) d = A.mergeContextualDiff o d from rfl]
    constructor
    · intro h
      unfold OuterRec.mergeContextualDiff
      rw [h]
      simp
    · intro h
      unfold OuterRec.mergeContextualDiff
      rw [h]
      simp only [Bool.false_eq_true, if_false, OuterRec.shouldKeepBothRecords]
      rw [if_pos (show innerInOuterFlatten = true from rfl)]
      generalize hself : A.inner = oi
      cases oi with
      | some cur =>
        simp only []
        split
        case isTrue hc3 =>
          obtain ⟨hcurnf, _, _⟩ := hc3
          obtain ⟨bi, hbi, hbiIff, hbiFalse⟩ :=
            inner_merge_contextual_bool cur o SentenceRange hcurnf
          have htruthy : (cur.merge_contextual o SentenceRange).2.truthy = bi := by
            rw [hbi]
            rfl
          cases bi with
          | true =>
            rw [htruthy]
            refine ⟨true, rfl, ?_⟩
            constructor
            · intro _
              have hpyne : (cur.merge_contextual o SentenceRange).1.pyEq cur = false :=
                hbiIff.mp rfl
              split
              · split <;>
                  simp [OuterRec.pyEq, mergeConfidenceSelfInner_x, mergeConfidenceSelfInner_y,
                    mergeConfidenceSelfInner_s, mergeConfidenceSelfInner_t,
                    mergeConfidenceSelfInner_inner, hself, hpyne]
              · simp_all
            · intro _; rfl
          | false =>
            rw [htruthy]
            have hunch : (cur.merge_contextual o SentenceRange).1 = cur := hbiFalse rfl
            refine ⟨false, rfl, ?_⟩
            rw [hunch, ← hself, outer_update_inner_id]
            simp [outerPyEq_refl]
        case isFalse =>
          refine ⟨false, rfl, ?_⟩
          simp [outerPyEq_refl]
      | none =>
        simp only []
        split
        case isTrue hc4 =>
          refine ⟨true, rfl, ?_⟩
          constructor
          · intro _
            split
            · split <;>
                simp [OuterRec.pyEq, mergeConfidenceSelfInner_inner, hself]
            · simp_all
          · intro _; rfl
        case isFalse =>
          refine ⟨false, rfl, ?_⟩
          simp [outerPyEq_refl]

/-- C3 counterexample: on a contextually fulfilled record, merge_contextual
returns the record itself (base.py:845-846), not a boolean. -/
theorem merge_contextual_return_counterexample :
    (c3A.merge_contextual (Sum.inl emptyOuterRec) 1).2 = .record c3A ∧
    ((c3A.merge_contextual (Sum.inl emptyOuterRec) 1).2).isBool = false :=
  ⟨rfl, rfl⟩

/-- Witness for C3 as amended, discharging the fulfilledness hypothesis at a
concrete record. -/
theorem merge_contextual_return_amended_witness :
    c3A.merge_contextual (Sum.inl emptyOuterRec) 1 = (c3A, .record c3A) :=
  (merge_contextual_return_amended c3A (Sum.inl emptyOuterRec) 1).1 rfl

/-! ## C1: merge monotonicity -/

/-- A truthy optional string is non-None. -/
theorem truthyStr_isSome (x : Option String) (h : truthyStr x = true) :
    x.isSome = true := by
  cases x <;> simp_all [truthyStr]

/-- C1 as amended: after merge_contextual(A, other, d), every
previously-non-default non-nested-model field of A holds the same value
(y, s, t are never written; a non-None x survives because either it is
truthy, blocking the fill, or it conflicts with a truthy incoming value,
making the records incompatible); an empty top-level field filled by the
call was filled within (no_merge_range, contextual_range].  The nested-model
field is exempt: it may be mutated in place by the recursive merge (and, in
schemas with binding fields, by binding consolidation), as the
counterexample shows. -/
theorem merge_contextual_monotonic_amended (A : OuterRec) (other : OuterRec ⊕ InnerRec)
    (d : ℚ) :
    (A.x.isSome = true → (A.merge_contextual other d).1.x = A.x) ∧
    (A.merge_contextual other d).1.y = A.y ∧
    (A.merge_contextual other d).1.s = A.s ∧
    (A.merge_contextual other d).1.t = A.t ∧
    (A.x = none → (A.merge_contextual other d).1.x ≠ none →
        d ≤ A.contextualRange ("x") ∧ d > A.noMergeRange ("x")) ∧
    (A.inner = none → (A.merge_contextual other d).1.inner ≠ none →
        d ≤ A.contextualRange ("inner") ∧ d > A.noMergeRange ("inner")) := by
  cases other with
  | inl o =>
    rw [show A.merge_contextual (Sum.inl o) d = A.mergeContextualSame o d from rfl]
    unfold OuterRec.mergeContextualSame
    split
    case isTrue =>
      refine ⟨fun _ => rfl, rfl, rfl, rfl, ?_, ?_⟩
      · intro h1 h2; exact absurd h1 h2
      · intro h1 h2; exact absurd h1 h2
    case isFalse =>
      simp only [OuterRec.shouldKeepBothRecords]
      split
      case isFalse =>
        refine ⟨fun _ => rfl, rfl, rfl, rfl, ?_, ?_⟩
        · intro h1 h2; exact absurd h1 h2
        · intro h1 h2; exact absurd h1 h2
      case isTrue hcomp =>
        split
        case isTrue hc1 =>
          obtain ⟨hxa, hxo, hdle, hdgt⟩ := hc1
          have hne : o.x ≠ A.x := truthyStr_ne o.x A.x hxo hxa
          have hceq : A.x.isSome = true → False := by
            intro hxs
            have hos : o.x.isSome = true := truthyStr_isSome o.x hxo
            simp [OuterRec.compatible, hxs, hos, Ne.symm hne] at hcomp
          split
          case isTrue hc2 =>
            refine ⟨fun hxs => absurd hxs (fun hxs2 => hceq hxs2), ?_, ?_, ?_, ?_, ?_⟩
            · split
              · split <;>
                  simp [mergeConfidenceSelf_y, mergeConfidenceInner_y, mergeConfidenceX_y]
              · simp_all
            · split
              · split <;>
                  simp [mergeConfidenceSelf_s, mergeConfidenceInner_s, mergeConfidenceX_s]
              · simp_all
            · split
              · split <;>
                  simp [mergeConfidenceSelf_t, mergeConfidenceInner_t, mergeConfidenceX_t]
              · simp_all
            · intro _ _
              exact ⟨hdle, hdgt⟩
            · intro _ _
              obtain ⟨_, _, hdle2, hdgt2⟩ := hc2
              refine ⟨hdle2, ?_⟩
              rw [mergeConfidenceX_noMergeInner] at hdgt2
              simpa using hdgt2
          case isFalse =>
            refine ⟨fun hxs => absurd hxs (fun hxs2 => hceq hxs2), ?_, ?_, ?_, ?_, ?_⟩
            · split
              · split <;> simp [mergeConfidenceSelf_y, mergeConfidenceX_y]
              · simp_all
            · split
              · split <;> simp [mergeConfidenceSelf_s, mergeConfidenceX_s]
              · simp_all
            · split
              · split <;> simp [mergeConfidenceSelf_t, mergeConfidenceX_t]
              · simp_all
            · intro _ _
              exact ⟨hdle, hdgt⟩
            · intro h1 h2
              exfalso
              apply h2
              split
              · split <;>
                  simp [mergeConfidenceSelf_inner, mergeConfidenceX_inner, h1]
              · simp_all
        case isFalse hnc1 =>
          split
          case isTrue hc2 =>
            obtain ⟨hinone, hosome, hdle2, hdgt2⟩ := hc2
            refine ⟨?_, ?_, ?_, ?_, ?_, ?_⟩
            · intro _
              split
              · split <;>
                  simp [mergeConfidenceSelf_x, mergeConfidenceInner_x]
              · simp_all
            · split
              · split <;>
                  simp [mergeConfidenceSelf_y, mergeConfidenceInner_y]
              · simp_all
            · split
              · split <;>
                  simp [mergeConfidenceSelf_s, mergeConfidenceInner_s]
              · simp_all
            · split
              · split <;>
                  simp [mergeConfidenceSelf_t, mergeConfidenceInner_t]
              · simp_all
            · intro h1 h2
              exfalso
              apply h2
              split
              · split <;>
                  simp [mergeConfidenceSelf_x, mergeConfidenceInner_x, h1]
              · simp_all
            · intro _ _
              exact ⟨hdle2, hdgt2⟩
          case isFalse =>
            refine ⟨fun _ => ?_, ?_, ?_, ?_, ?_, ?_⟩
            · split
              · split <;> simp [mergeConfidenceSelf_x]
              · simp_all
            · split
              · split <;> simp [mergeConfidenceSelf_y]
              · simp_all
            · split
              · split <;> simp [mergeConfidenceSelf_s]
              · simp_all
            · split
              · split <;> simp [mergeConfidenceSelf_t]
              · simp_all
            · intro h1 h2
              exfalso
              apply h2
              split
              · split <;> simp [mergeConfidenceSelf_x, h1]
              · simp_all
            · intro h1 h2
              exfalso
              apply h2
              split
              · split <;> simp [mergeConfidenceSelf_inner, h1]
              · simp_all
  | inr o =>
    rw [show A.merge_contextual (Sum.inr o) d = A.mergeContextualDiff o d from rfl]
    unfold OuterRec.mergeContextualDiff
    split
    case isTrue =>
      refine ⟨fun _ => rfl, rfl, rfl, rfl, ?_, ?_⟩
      · intro h1 h2; exact absurd h1 h2
      · intro h1 h2; exact absurd h1 h2
    case isFalse =>
      simp only [OuterRec.shouldKeepBothRecords]
      rw [if_pos (show innerInOuterFlatten = true from rfl)]
      generalize hself : A.inner = oi
      cases oi with
      | some cur =>
        simp only []
        split
        case isTrue hc3 =>
          refine ⟨?_, ?_, ?_, ?_, ?_, ?_⟩
          · intro _
            split
            · split <;>
                simp [mergeConfidenceSelfInner_x]
            · simp_all
          · split
            · split <;> simp [mergeConfidenceSelfInner_y]
            · simp_all
          · split
            · split <;> simp [mergeConfidenceSelfInner_s]
            · simp_all
          · split
            · split <;> simp [mergeConfidenceSelfInner_t]
            · simp_all
          · intro h1 h2
            exfalso
            apply h2
            split
            · split <;> simp [mergeConfidenceSelfInner_x, h1]
            · simp_all
          · intro h1 _
            exact absurd h1 (by simp)
        case isFalse =>
          refine ⟨fun _ => ?_, ?_, ?_, ?_, ?_, ?_⟩
          · split
            · split <;> simp [mergeConfidenceSelfInner_x]
            · simp_all
          · split
            · split <;> simp [mergeConfidenceSelfInner_y]
            · simp_all
          · split
            · split <;> simp [mergeConfidenceSelfInner_s]
            · simp_all
          · split
            · split <;> simp [mergeConfidenceSelfInner_t]
            · simp_all
          · intro h1 h2
            exfalso
            apply h2
            split
            · split <;> simp [mergeConfidenceSelfInner_x, h1]
            · simp_all
          · intro h1 _
            exact absurd h1 (by simp)
      | none =>
        simp only []
        split
        case isTrue hc4 =>
          obtain ⟨hdle4, hdgt4⟩ := hc4
          refine ⟨fun _ => ?_, ?_, ?_, ?_, ?_, ?_⟩
          · split
            · split <;> simp [mergeConfidenceSelfInner_x]
            · simp_all
          · split
            · split <;> simp [mergeConfidenceSelfInner_y]
            · simp_all
          · split
            · split <;> simp [mergeConfidenceSelfInner_s]
            · simp_all
          · split
            · split <;> simp [mergeConfidenceSelfInner_t]
            · simp_all
          · intro h1 h2
            exfalso
            apply h2
            split
            · split <;> simp [mergeConfidenceSelfInner_x, h1]
            · simp_all
          · intro _ _
            exact ⟨hdle4, hdgt4⟩
        case isFalse =>
          refine ⟨fun _ => ?_, ?_, ?_, ?_, ?_, ?_⟩
          · split
            · split <;> simp [mergeConfidenceSelfInner_x]
            · simp_all
          · split
            · split <;> simp [mergeConfidenceSelfInner_y]
            · simp_all
          · split
            · split <;> simp [mergeConfidenceSelfInner_s]
            · simp_all
          · split
            · split <;> simp [mergeConfidenceSelfInner_t]
            · simp_all
          · intro h1 h2
            exfalso
            apply h2
            split
            · split <;> simp [mergeConfidenceSelfInner_x, h1]
            · simp_all
          · intro h1 h2
            exfalso
            apply h2
            split
            · split <;> simp [mergeConfidenceSelfInner_inner, hself]
            · simp_all

/-- C1 counterexample: the field `inner` of `c1A` holds a non-default value
(a partial nested record) before the call, yet merge_contextual mutates it
in place (base.py:874-882), so the field does not hold the same value after
the call. -/
theorem merge_contextual_monotonicity_counterexample :
    c1A.inner ≠ none ∧
    (c1A.merge_contextual (Sum.inr c1B) 1).1.inner ≠ c1A.inner := by
  constructor
  · simp [c1A, emptyOuterRec]
  · norm_num [OuterRec.merge_contextual, OuterRec.mergeContextualDiff,
      InnerRec.merge_contextual, OuterRec.contextualFulfilled, InnerRec.contextualFulfilled,
      c1A, c1B, emptyOuterRec, OuterRec.shouldKeepBothRecords, InnerRec.shouldKeepBothRecords,
      innerInOuterFlatten, outerContextualRangeInner, DocumentRange, SentenceRange,
      innerContextualRangeA, truthyStr, InnerRec.compatible, InnerRec.mergeConfidenceA,
      InnerRec.getConfA, InnerRec.setConfA, MergeRet.truthy]
    decide

/-- Witness for C1 as amended: a previously-set `x` is unchanged by the
merge. -/
theorem merge_contextual_monotonic_amended_witness :
    (c1Aw.merge_contextual (Sum.inl emptyOuterRec) 1).1.x = c1Aw.x :=
  (merge_contextual_monotonic_amended c1Aw (Sum.inl emptyOuterRec) 1).1 rfl

/-! ## C4: subset reduction -/

/-- C4 as amended: when Y is a subset of X, X is not a subset of Y (a proper
loss of information), and the total confidences are 0.9 and 0.5,
remove_subsets(strict=False) on [X, Y] keeps exactly X.  (When the two
records hold identical field values they are mutual subsets and the
higher-confidence record is the one removed — see the counterexample.) -/
theorem remove_subsets_keeps_superset_amended (X Y : OuterRec)
    (hsup : X.is_superset Y = true) (hnsub : Y.is_superset X = false)
    (hx : X.total_confidence = 9/10) (hy : Y.total_confidence = 1/2) :
    ModelList_remove_subsets [X, Y] false = [X] := by
  have hkx : removeSubsetsKey X = 9/10 := hx
  have hky : removeSubsetsKey Y = 1/2 := hy
  have hsorted : sortDescByConf [X, Y] = [X, Y] := by
    unfold sortDescByConf
    norm_num [List.insertionSort, List.orderedInsert, hkx, hky]
  simp only [ModelList_remove_subsets]
  rw [hsorted]
  have hrange : List.range 2 = [0, 1] := rfl
  have hrem : removeSubsetsToRemove [X, Y] false = [1] := by
    unfold removeSubsetsToRemove
    simp only [List.length_cons, List.length_nil]
    rw [hrange]
    simp [List.foldl, OuterRec.is_subset, hsup, hnsub]
  rw [hrem]
  simp only [List.length_cons, List.length_nil]
  rw [hrange]
  simp [List.filter, List.getD]

/-- C4 counterexample: Y holds exactly the field values of X (hence is a
non-strict subset of X) with confidence 0.5 against 0.9; the dedup pass
removes the higher-confidence X and keeps Y, not X. -/
theorem remove_subsets_counterexample :
    c4Y.is_subset c4X = true ∧
    OuterRec.total_confidence c4X = 9/10 ∧
    OuterRec.total_confidence c4Y = 1/2 ∧
    c4X ≠ c4Y ∧
    ModelList_remove_subsets [c4X, c4Y] false = [c4Y] := by
  refine ⟨by decide, rfl, rfl, ?_, ?_⟩
  · simp only [c4X, c4Y, emptyOuterRec, ne_eq, OuterRec.mk.injEq]
    norm_num
  · have hsorted : sortDescByConf [c4X, c4Y] = [c4X, c4Y] := by
      unfold sortDescByConf
      norm_num [List.insertionSort, List.orderedInsert, removeSubsetsKey,
        OuterRec.total_confidence, c4X, c4Y, emptyOuterRec]
    simp only [ModelList_remove_subsets]
    rw [hsorted]
    have hrange : List.range 2 = [0, 1] := rfl
    have hrem : removeSubsetsToRemove [c4X, c4Y] false = [0] := by
      unfold removeSubsetsToRemove
      simp only [List.length_cons, List.length_nil]
      rw [hrange]
      simp [List.foldl]
      decide
    rw [hrem]
    simp only [List.length_cons, List.length_nil]
    rw [hrange]
    simp [List.filter, List.getD]

/-- Witness for C4 as amended at a concrete proper-subset pair. -/
theorem remove_subsets_keeps_superset_amended_witness :
    ModelList_remove_subsets [c4Xw, c4Yw] false = [c4Xw] :=
  remove_subsets_keeps_superset_amended c4Xw c4Yw (by decide) (by decide) rfl rfl

/-! ## C5: the serialize/deserialize roundtrip -/

theorem flatten_append (l1 l2 : List (String × PyVal)) :
    flattenSerialized (l1 ++ l2) = flattenSerialized l1 ++ flattenSerialized l2 := by
  induction l1 with
  | nil => rw [List.nil_append, flattenSerialized, List.nil_append]
  | cons kv rest ih =>
    obtain ⟨k, v⟩ := kv
    cases v <;> simp [flattenSerialized, ih, List.append_assoc]

theorem cleanKey_souter_name : cleanKey ["SOuter", "name"] = ["name"] := by decide

theorem cleanKey_souter_val : cleanKey ["SOuter", "val"] = ["val"] := by decide

theorem cleanKey_souter_tags : cleanKey ["SOuter", "tags"] = ["tags"] := by decide

theorem cleanKey_souter_items : cleanKey ["SOuter", "items"] = ["items"] := by decide

theorem cleanKey_souter_child_p :
    cleanKey ["SOuter", "child", "SInner", "p"] = ["child", "p"] := by decide

theorem cleanKey_souter_child_q :
    cleanKey ["SOuter", "child", "SInner", "q"] = ["child", "q"] := by decide

theorem cleanKey_sinner_p : cleanKey ["SInner", "p"] = ["p"] := by decide

theorem cleanKey_sinner_q : cleanKey ["SInner", "q"] = ["q"] := by decide

/-- segMap distributes over list append. -/
theorem segMap_append (l1 l2 : List (String × PyVal)) :
    segMap (l1 ++ l2) = segMap l1 ++ segMap l2 := by
  simp [segMap, flatten_append]

theorem segMap_nameData (nm : Option String) : segMap (nameData nm) = nameSeg nm := by
  cases nm with
  | none => simp [segMap, nameData, nameSeg, flattenSerialized]
  | some v =>
    by_cases hv : v = "" <;>
      simp [segMap, nameData, nameSeg, flattenSerialized, hv, cleanKey_souter_name]

theorem segMap_valData (vl : Option ℚ) : segMap (valData vl) = valSeg vl := by
  cases vl <;> simp [segMap, valData, valSeg, flattenSerialized, cleanKey_souter_val]

theorem segMap_tagsData (tg : Option (List String)) : segMap (tagsData tg) = tagsSeg tg := by
  cases hs : SetType_serialize id tg <;>
    simp [segMap, tagsData, tagsSeg, hs, flattenSerialized, cleanKey_souter_tags]

theorem segMap_itemsData (it : Option (List SInnerRec)) :
    segMap (itemsData it) = itemsSeg it := by
  cases it with
  | none => simp [segMap, itemsData, itemsSeg, flattenSerialized]
  | some l =>
    by_cases hl : l.isEmpty <;>
      simp [segMap, itemsData, itemsSeg, flattenSerialized, hl, cleanKey_souter_items]

theorem segMap_childData (c : Option SInnerRec) : segMap (childData c) = childSeg c := by
  cases c with
  | none => simp [segMap, childData, childSeg, flattenSerialized]
  | some ci =>
    obtain ⟨cp, cq⟩ := ci
    cases cp with
    | none =>
      cases cq <;>
        simp [segMap, childData, childSeg, SInner_serialize, SInner_serializeData,
          pData, qData, pSeg, qSeg, flattenSerialized, flatten_append,
          cleanKey_souter_child_p, cleanKey_souter_child_q]
    | some pv =>
      by_cases hp : pv = "" <;>
        cases cq <;>
          simp [segMap, childData, childSeg, SInner_serialize, SInner_serializeData,
            pData, qData, pSeg, qSeg, flattenSerialized, flatten_append,
            cleanKey_souter_child_p, cleanKey_souter_child_q, hp]

/-- The assignment list of a serialized SOuter record decomposes into one
segment per field, in declaration order. -/
theorem cleaned_serialize_eq (r : SOuterRec) :
    cleanedAssignments (SOuter_serialize r) =
      nameSeg r.name ++ valSeg r.val ++ tagsSeg r.tags ++ itemsSeg r.items ++
        childSeg r.child := by
  have hseg : cleanedAssignments (SOuter_serialize r) = segMap (SOuter_serializeData r) := by
    simp [cleanedAssignments, SOuter_serialize, segMap, flattenSerialized,
      List.map_map, Function.comp_def]
  rw [hseg]
  unfold SOuter_serializeData
  rw [segMap_append, segMap_append, segMap_append, segMap_append,
    segMap_nameData, segMap_valData, segMap_tagsData, segMap_itemsData, segMap_childData]

/-- Serialized string lists pass through the tags extraction unchanged. -/
theorem filterMap_pyval_s (l : List String) :
    (l.map PyVal.s).filterMap (fun e => match e with
      | PyVal.s v => some v
      | _ => none) = l := by
  induction l with
  | nil => rfl
  | cons hd tl ih => simp [List.filterMap_cons, ih]

theorem foldl_nameSeg (r0 : SOuterRec) (nm : Option String) :
    List.foldl applyAssignOuter r0 (nameSeg nm) =
      (match nm with
       | some v => if v = "" then r0 else { r0 with name := some v }
       | none => r0) := by
  cases nm with
  | none => rfl
  | some v => by_cases hv : v = "" <;> simp [nameSeg, applyAssignOuter, hv]

theorem foldl_valSeg (r0 : SOuterRec) (vl : Option ℚ) :
    List.foldl applyAssignOuter r0 (valSeg vl) =
      (match vl with
       | some v => { r0 with val := some v }
       | none => r0) := by
  cases vl <;> simp [valSeg, applyAssignOuter]

theorem foldl_tagsSeg (r0 : SOuterRec) (tg : Option (List String)) :
    List.foldl applyAssignOuter r0 (tagsSeg tg) =
      (match SetType_serialize id tg with
       | some sorted => { r0 with tags := some sorted }
       | none => r0) := by
  cases hs : SetType_serialize id tg with
  | none => simp [tagsSeg, hs]
  | some sorted => simp [tagsSeg, hs, applyAssignOuter, Function.comp_def]

theorem foldl_itemsSeg (r0 : SOuterRec) (it : Option (List SInnerRec)) :
    List.foldl applyAssignOuter r0 (itemsSeg it) =
      (match it with
       | some l => if l.isEmpty then r0
                   else { r0 with items := some ((l.map SInner_serialize).map SInner_deserialize) }
       | none => r0) := by
  cases it with
  | none => rfl
  | some l => by_cases hl : l.isEmpty <;> simp [itemsSeg, applyAssignOuter, hl]

theorem foldl_childSeg (r0 : SOuterRec) (c : Option SInnerRec) (h : r0.child = none) :
    List.foldl applyAssignOuter r0 (childSeg c) =
      (match c with
       | some ci =>
         if stringIsEmpty ci.p = true ∧ ci.q = none then r0
         else { r0 with child := some { p := pWrite ci.p, q := ci.q } }
       | none => r0) := by
  cases c with
  | none => rfl
  | some ci =>
    obtain ⟨cp, cq⟩ := ci
    cases cp with
    | none =>
      cases cq <;>
        simp [childSeg, pSeg, qSeg, applyAssignOuter, h, pWrite, stringIsEmpty,
          emptySInnerRec]
    | some pv =>
      by_cases hp : pv = "" <;>
        cases cq <;>
          simp [childSeg, pSeg, qSeg, applyAssignOuter, h, hp, pWrite, stringIsEmpty,
            emptySInnerRec]

theorem foldl_nameSeg_frames (r0 : SOuterRec) (nm : Option String) :
    (List.foldl applyAssignOuter r0 (nameSeg nm)).val = r0.val ∧
    (List.foldl applyAssignOuter r0 (nameSeg nm)).tags = r0.tags ∧
    (List.foldl applyAssignOuter r0 (nameSeg nm)).items = r0.items ∧
    (List.foldl applyAssignOuter r0 (nameSeg nm)).child = r0.child := by
  rw [foldl_nameSeg]
  cases nm with
  | none => exact ⟨rfl, rfl, rfl, rfl⟩
  | some v => by_cases hv : v = "" <;> simp [hv]

theorem foldl_valSeg_frames (r0 : SOuterRec) (vl : Option ℚ) :
    (List.foldl applyAssignOuter r0 (valSeg vl)).name = r0.name ∧
    (List.foldl applyAssignOuter r0 (valSeg vl)).tags = r0.tags ∧
    (List.foldl applyAssignOuter r0 (valSeg vl)).items = r0.items ∧
    (List.foldl applyAssignOuter r0 (valSeg vl)).child = r0.child := by
  rw [foldl_valSeg]
  cases vl <;> exact ⟨rfl, rfl, rfl, rfl⟩

theorem foldl_tagsSeg_frames (r0 : SOuterRec) (tg : Option (List String)) :
    (List.foldl applyAssignOuter r0 (tagsSeg tg)).name = r0.name ∧
    (List.foldl applyAssignOuter r0 (tagsSeg tg)).val = r0.val ∧
    (List.foldl applyAssignOuter r0 (tagsSeg tg)).items = r0.items ∧
    (List.foldl applyAssignOuter r0 (tagsSeg tg)).child = r0.child := by
  rw [foldl_tagsSeg]
  cases SetType_serialize id tg <;> exact ⟨rfl, rfl, rfl, rfl⟩

theorem foldl_itemsSeg_frames (r0 : SOuterRec) (it : Option (List SInnerRec)) :
    (List.foldl applyAssignOuter r0 (itemsSeg it)).name = r0.name ∧
    (List.foldl applyAssignOuter r0 (itemsSeg it)).val = r0.val ∧
    (List.foldl applyAssignOuter r0 (itemsSeg it)).tags = r0.tags ∧
    (List.foldl applyAssignOuter r0 (itemsSeg it)).child = r0.child := by
  rw [foldl_itemsSeg]
  cases it with
  | none => exact ⟨rfl, rfl, rfl, rfl⟩
  | some l => by_cases hl : l.isEmpty <;> simp [hl]

theorem foldl_childSeg_frames (r0 : SOuterRec) (c : Option SInnerRec) :
    (List.foldl applyAssignOuter r0 (childSeg c)).name = r0.name ∧
    (List.foldl applyAssignOuter r0 (childSeg c)).val = r0.val ∧
    (List.foldl applyAssignOuter r0 (childSeg c)).tags = r0.tags ∧
    (List.foldl applyAssignOuter r0 (childSeg c)).items = r0.items := by
  cases c with
  | none => exact ⟨rfl, rfl, rfl, rfl⟩
  | some ci =>
    obtain ⟨cp, cq⟩ := ci
    cases cp with
    | none =>
      cases cq <;> simp [childSeg, pSeg, qSeg, applyAssignOuter]
    | some pv =>
      by_cases hp : pv = "" <;>
        cases cq <;> simp [childSeg, pSeg, qSeg, applyAssignOuter, hp]

/-- The inner roundtrip: a deserialized serialized SInner record agrees with
the original on every non-empty field. -/
theorem inner_roundtrip (i : SInnerRec) :
    agreesInner (SInner_deserialize (SInner_serialize i)) i := by
  obtain ⟨p, q⟩ := i
  unfold SInner_deserialize cleanedAssignments SInner_serialize SInner_serializeData
  cases p with
  | none =>
    cases q <;>
      simp [flattenSerialized, flatten_append, pData, qData, cleanKey_sinner_p,
        cleanKey_sinner_q, applyAssignInner, agreesInner, emptySInnerRec, stringIsEmpty]
  | some pv =>
    by_cases hp : pv = "" <;>
      cases q <;>
        simp [flattenSerialized, flatten_append, pData, qData, cleanKey_sinner_p,
          cleanKey_sinner_q, applyAssignInner, agreesInner, emptySInnerRec,
          stringIsEmpty, hp]

/-- Elementwise roundtrip agreement for lists of nested records. -/
theorem items_roundtrip (l : List SInnerRec) :
    List.Forall₂ agreesInner ((l.map SInner_serialize).map SInner_deserialize) l := by
  induction l with
  | nil => exact List.Forall₂.nil
  | cons hd tl ih =>
    simp only [List.map_cons]
    exact List.Forall₂.cons (inner_roundtrip hd) ih

/-- Sorting a list of strings does not change its set of elements. -/
theorem insertionSort_toFinset (l : List String) :
    ((l.map id).insertionSort pyStrLeRel).toFinset = l.toFinset := by
  have hperm : ((l.map id).insertionSort pyStrLeRel).Perm l := by
    simpa using List.perm_insertionSort pyStrLeRel (l.map id)
  ext a
  simp [List.mem_toFinset, hperm.mem_iff]

/-- C5: for every SOuter record (with nested model fields, a list of nested
models and a set field), deserialize(serialize(R)) agrees with R on every
non-empty field, recursively. -/
theorem serialize_deserialize_roundtrip (r : SOuterRec) :
    agreesOuter (SOuter_deserialize (SOuter_serialize r)) r := by
  have hsegs := cleaned_serialize_eq r
  unfold SOuter_deserialize
  rw [hsegs, List.foldl_append, List.foldl_append, List.foldl_append, List.foldl_append]
  generalize hr1 : List.foldl applyAssignOuter freshSOuterRec (nameSeg r.name) = r1
  generalize hr2 : List.foldl applyAssignOuter r1 (valSeg r.val) = r2
  generalize hr3 : List.foldl applyAssignOuter r2 (tagsSeg r.tags) = r3
  generalize hr4 : List.foldl applyAssignOuter r3 (itemsSeg r.items) = r4
  have h1f := foldl_nameSeg_frames freshSOuterRec r.name
  rw [hr1] at h1f
  have h2f := foldl_valSeg_frames r1 r.val
  rw [hr2] at h2f
  have h3f := foldl_tagsSeg_frames r2 r.tags
  rw [hr3] at h3f
  have h4f := foldl_itemsSeg_frames r3 r.items
  rw [hr4] at h4f
  have h5f := foldl_childSeg_frames r4 r.child
  have hchild4 : r4.child = none := by
    rw [h4f.2.2.2, h3f.2.2.2, h2f.2.2.2, h1f.2.2.2]
    rfl
  have h5e := foldl_childSeg r4 r.child hchild4
  refine ⟨?_, ?_, ?_, ?_, ?_⟩
  · intro hne
    rw [h5f.1]
    rw [h4f.1, h3f.1, h2f.1]
    rw [← hr1, foldl_nameSeg]
    cases hn : r.name with
    | none => rw [hn] at hne; simp [stringIsEmpty] at hne
    | some v =>
      rw [hn] at hne
      have hv : ¬(v = "") := by simpa [stringIsEmpty] using hne
      simp [hv]
  · intro hq
    rw [h5f.2.1, h4f.2.1, h3f.2.1]
    rw [← hr2, foldl_valSeg]
    cases hv : r.val with
    | none => rw [hv] at hq; simp at hq
    | some v => simp
  · intro ts hts htne
    rw [h5f.2.2.1, h4f.2.2.1]
    rw [← hr3, foldl_tagsSeg]
    have hlen : ¬(ts.length = 0) := by simpa using htne
    rw [hts]
    simp only [SetType_serialize, hlen, if_neg]
    exact ⟨_, rfl, insertionSort_toFinset ts⟩
  · intro l hl hlne
    rw [h5f.2.2.2]
    rw [← hr4, foldl_itemsSeg]
    rw [hl]
    have hle : ¬(l.isEmpty = true) := by simpa using hlne
    simp only [hle, if_neg]
    exact ⟨_, rfl, items_roundtrip l⟩
  · intro c hc hcne
    rw [h5e, hc]
    have hnot : ¬(stringIsEmpty c.p = true ∧ c.q = none) := by
      intro ⟨hp, hq⟩
      obtain ⟨cp, cq⟩ := c
      simp [SInner_isEmptyRec, hp, hq] at hcne
      simp_all [Option.isNone_iff_eq_none]
    simp only [hnot, if_neg]
    refine ⟨_, rfl, ?_, ?_⟩
    · intro hpe
      obtain ⟨cp, cq⟩ := c
      cases cp with
      | none => simp [stringIsEmpty] at hpe
      | some v =>
        have hv : ¬(v = "") := by simpa [stringIsEmpty] using hpe
        simp [pWrite, hv]
    · intro _
      rfl

end CDE
